import Mathlib

/-!
Verification of the OPlus_EDL_Toolkit super-image configuration loader
(src/src-tauri/src/super_image_creater.rs).

The Rust code declares serde Deserialize records (PartitionConfig, SuperMeta,
BlockDevice, Group, Partition), an error enum JsonParseError with FileError
and JsonError variants, and one function read_partition_config that opens a
file, parses its contents as JSON with serde_json, and maps the fields into
the records.  We embed the JSON data model, a JSON parser mirroring
serde_json syntax, the derived field decoders mirroring serde semantics
(keys matched verbatim, duplicate keys rejected, unknown keys ignored,
serde-default fields becoming the empty string when absent), and the load
function over an abstract file system.
-/

set_option maxRecDepth 100000

namespace SuperImageCreater

/-- JSON values.  Numbers keep their raw source text, since the loader never
interprets numeric values. -/
inductive Json where
  | null : Json
  | bool (b : Bool) : Json
  | num (raw : String) : Json
  | str (s : String) : Json
  | arr (elems : List Json) : Json
  | obj (fields : List (String × Json)) : Json
deriving Repr

/-! ## JSON syntax: a parser modelling serde_json -/

def isWs (c : Char) : Bool :=
  c = ' ' || c = '\t' || c = '\n' || c = '\r'

def skipWs : List Char → List Char
  | [] => []
  | c :: rest => if isWs c then skipWs rest else c :: rest

def hexVal (c : Char) : Option Nat :=
  if '0' ≤ c ∧ c ≤ '9' then some (c.toNat - '0'.toNat)
  else if 'a' ≤ c ∧ c ≤ 'f' then some (c.toNat - 'a'.toNat + 10)
  else if 'A' ≤ c ∧ c ≤ 'F' then some (c.toNat - 'A'.toNat + 10)
  else none

def hex4 (h1 h2 h3 h4 : Char) : Option Nat :=
  match hexVal h1, hexVal h2, hexVal h3, hexVal h4 with
  | some a, some b, some c, some d => some (((a * 16 + b) * 16 + c) * 16 + d)
  | _, _, _, _ => none

/-- Body of a JSON string literal, after the opening quote.  Mirrors
serde_json: simple escapes, hex escapes with surrogate pairing, raw control
characters rejected. -/
def parseStringBody : List Char → List Char → Except String (String × List Char)
  | [], _ => .error "EOF while parsing a string"
  | '"' :: rest, acc => .ok (String.mk acc.reverse, rest)
  | '\\' :: 'u' :: h1 :: h2 :: h3 :: h4 :: rest, acc =>
    match hex4 h1 h2 h3 h4 with
    | none => .error "invalid hex escape"
    | some n =>
      if n < 0xD800 ∨ 0xDFFF < n then
        parseStringBody rest (Char.ofNat n :: acc)
      else if 0xDBFF < n then
        .error "unexpected trailing surrogate"
      else
        match rest with
        | '\\' :: 'u' :: g1 :: g2 :: g3 :: g4 :: rest2 =>
          match hex4 g1 g2 g3 g4 with
          | none => .error "invalid hex escape"
          | some m =>
            if 0xDC00 ≤ m ∧ m ≤ 0xDFFF then
              parseStringBody rest2
                (Char.ofNat (0x10000 + (n - 0xD800) * 0x400 + (m - 0xDC00)) :: acc)
            else .error "lone leading surrogate in hex escape"
        | _ => .error "unexpected end of hex escape"
  | '\\' :: e :: rest, acc =>
    if e = '"' then parseStringBody rest ('"' :: acc)
    else if e = '\\' then parseStringBody rest ('\\' :: acc)
    else if e = '/' then parseStringBody rest ('/' :: acc)
    else if e = 'b' then parseStringBody rest (Char.ofNat 8 :: acc)
    else if e = 'f' then parseStringBody rest (Char.ofNat 12 :: acc)
    else if e = 'n' then parseStringBody rest ('\n' :: acc)
    else if e = 'r' then parseStringBody rest ('\r' :: acc)
    else if e = 't' then parseStringBody rest ('\t' :: acc)
    else .error "invalid escape"
  | c :: rest, acc =>
    if c.toNat < 0x20 then .error "control character in string"
    else parseStringBody rest (c :: acc)

def takeDigits : List Char → List Char × List Char
  | [] => ([], [])
  | c :: rest =>
    if c.isDigit then
      let (ds, r) := takeDigits rest
      (c :: ds, r)
    else ([], c :: rest)

/-- Fractional and exponent parts of a JSON number, given the characters
already consumed (in reverse). -/
def parseNumTail (cs : List Char) (acc : List Char) :
    Except String (String × List Char) :=
  let (acc1, cs1) :=
    match cs with
    | '.' :: rest =>
      match takeDigits rest with
      | ([], _) => ([], [])
      | (ds, r) => (ds.reverse ++ '.' :: acc, r)
    | _ => (acc, cs)
  if acc1 = [] then .error "invalid number" else
  match cs1 with
  | 'e' :: rest =>
    match rest with
    | '+' :: rest2 =>
      match takeDigits rest2 with
      | ([], _) => .error "invalid number"
      | (ds, r) => .ok (String.mk (ds.reverse ++ '+' :: 'e' :: acc1).reverse, r)
    | '-' :: rest2 =>
      match takeDigits rest2 with
      | ([], _) => .error "invalid number"
      | (ds, r) => .ok (String.mk (ds.reverse ++ '-' :: 'e' :: acc1).reverse, r)
    | _ =>
      match takeDigits rest with
      | ([], _) => .error "invalid number"
      | (ds, r) => .ok (String.mk (ds.reverse ++ 'e' :: acc1).reverse, r)
  | 'E' :: rest =>
    match rest with
    | '+' :: rest2 =>
      match takeDigits rest2 with
      | ([], _) => .error "invalid number"
      | (ds, r) => .ok (String.mk (ds.reverse ++ '+' :: 'E' :: acc1).reverse, r)
    | '-' :: rest2 =>
      match takeDigits rest2 with
      | ([], _) => .error "invalid number"
      | (ds, r) => .ok (String.mk (ds.reverse ++ '-' :: 'E' :: acc1).reverse, r)
    | _ =>
      match takeDigits rest with
      | ([], _) => .error "invalid number"
      | (ds, r) => .ok (String.mk (ds.reverse ++ 'E' :: acc1).reverse, r)
  | _ => .ok (String.mk acc1.reverse, cs1)

/-- A JSON number starting at the given characters: optional minus sign,
integer part with no leading zeros, optional fraction and exponent.  The raw
text is returned unconverted. -/
def parseNumber (cs : List Char) : Except String (String × List Char) :=
  match cs with
  | '-' :: '0' :: rest => parseNumTail rest ['0', '-']
  | '-' :: c :: rest =>
    if c.isDigit then
      let (ds, r) := takeDigits rest
      parseNumTail r (ds.reverse ++ [c, '-'])
    else .error "invalid number"
  | '0' :: rest => parseNumTail rest ['0']
  | c :: rest =>
    if c.isDigit then
      let (ds, r) := takeDigits rest
      parseNumTail r (ds.reverse ++ [c])
    else .error "expected value"
  | [] => .error "EOF while parsing a value"

mutual

/-- One JSON value, fuel-bounded.  The fuel only limits nesting and element
counts and is chosen large enough at the top entry point. -/
def parseValue : Nat → List Char → Except String (Json × List Char)
  | 0, _ => .error "recursion limit exceeded"
  | fuel + 1, cs =>
    match skipWs cs with
    | [] => .error "EOF while parsing a value"
    | 'n' :: 'u' :: 'l' :: 'l' :: rest => .ok (.null, rest)
    | 't' :: 'r' :: 'u' :: 'e' :: rest => .ok (.bool true, rest)
    | 'f' :: 'a' :: 'l' :: 's' :: 'e' :: rest => .ok (.bool false, rest)
    | '"' :: rest =>
      match parseStringBody rest [] with
      | .error e => .error e
      | .ok (s, rest2) => .ok (.str s, rest2)
    | '[' :: rest =>
      match skipWs rest with
      | ']' :: rest2 => .ok (.arr [], rest2)
      | rest2 =>
        match parseElements fuel rest2 [] with
        | .error e => .error e
        | .ok (elems, rest3) => .ok (.arr elems, rest3)
    | '{' :: rest =>
      match skipWs rest with
      | '}' :: rest2 => .ok (.obj [], rest2)
      | rest2 =>
        match parseMembers fuel rest2 [] with
        | .error e => .error e
        | .ok (fields, rest3) => .ok (.obj fields, rest3)
    | cs2 =>
      match parseNumber cs2 with
      | .error e => .error e
      | .ok (raw, rest) => .ok (.num raw, rest)

/-- Array elements after the opening bracket of a nonempty array. -/
def parseElements : Nat → List Char → List Json → Except String (List Json × List Char)
  | 0, _, _ => .error "recursion limit exceeded"
  | fuel + 1, cs, acc =>
    match parseValue fuel cs with
    | .error e => .error e
    | .ok (v, rest) =>
      match skipWs rest with
      | ',' :: rest2 => parseElements fuel rest2 (v :: acc)
      | ']' :: rest2 => .ok ((v :: acc).reverse, rest2)
      | _ => .error "expected comma or bracket"

/-- Object members after the opening brace of a nonempty object. -/
def parseMembers : Nat → List Char → List (String × Json) →
    Except String (List (String × Json) × List Char)
  | 0, _, _ => .error "recursion limit exceeded"
  | fuel + 1, cs, acc =>
    match skipWs cs with
    | '"' :: rest =>
      match parseStringBody rest [] with
      | .error e => .error e
      | .ok (k, rest2) =>
        match skipWs rest2 with
        | ':' :: rest3 =>
          match parseValue fuel rest3 with
          | .error e => .error e
          | .ok (v, rest4) =>
            match skipWs rest4 with
            | ',' :: rest5 => parseMembers fuel rest5 ((k, v) :: acc)
            | '}' :: rest5 => .ok (((k, v) :: acc).reverse, rest5)
            | _ => .error "expected comma or brace"
        | _ => .error "expected colon"
    | _ => .error "key must be a string"

end

/-- Parse a whole document: one JSON value, with only whitespace allowed
after it, as serde_json from_reader requires. -/
def parseJson (s : String) : Except String Json :=
  match parseValue (2 * s.length + 2) s.data with
  | .error e => .error e
  | .ok (j, rest) =>
    match skipWs rest with
    | [] => .ok j
    | _ => .error "trailing characters"

/-! ## Data model: the records of super_image_creater.rs -/

/-- Rust struct SuperMeta: required string fields path and size. -/
structure SuperMeta where
  path : String
  size : String
deriving Repr, DecidableEq

/-- Rust struct BlockDevice: required string fields. -/
structure BlockDevice where
  block_size : String
  name : String
  alignment : String
  size : String
deriving Repr, DecidableEq

/-- Rust struct Group: required name, serde-default maximum_size. -/
structure Group where
  name : String
  maximum_size : String
deriving Repr, DecidableEq

/-- Rust struct Partition: required is_dynamic, name, group_name;
serde-default path and size. -/
structure Partition where
  is_dynamic : Bool
  name : String
  group_name : String
  path : String
  size : String
deriving Repr, DecidableEq

/-- Rust struct PartitionConfig: the top-level record. -/
structure PartitionConfig where
  super_meta : SuperMeta
  nv_text : String
  block_devices : List BlockDevice
  groups : List Group
  nv_id : String
  partitions : List Partition
deriving Repr, DecidableEq

/-- Rust enum JsonParseError: FileError wraps the io error, JsonError wraps
the serde_json error.  Both payloads are modelled as their display text. -/
inductive JsonParseError where
  | FileError (e : String) : JsonParseError
  | JsonError (e : String) : JsonParseError
deriving Repr, DecidableEq

/-! ## Field decoders modelling the serde derive

For each struct, serde generates a visitor that walks the object members in
order, matching keys verbatim, rejecting a duplicate of an already seen
field, ignoring unknown keys, and at the end failing on a missing required
field while substituting Default::default for a serde(default) field.  The
String deserializer accepts exactly a JSON string; the bool deserializer
exactly a JSON boolean. -/

def decodeString : Json → Except String String
  | .str s => .ok s
  | _ => .error "invalid type: expected a string"

def decodeBool : Json → Except String Bool
  | .bool b => .ok b
  | _ => .error "invalid type: expected a boolean"

/-- Elements of a JSON array, decoded in order, first failure aborting. -/
def decodeElems (dec : Json → Except String α) : List Json → Except String (List α)
  | [] => .ok []
  | x :: xs =>
    match dec x with
    | .error e => .error e
    | .ok a =>
      match decodeElems dec xs with
      | .error e => .error e
      | .ok rest => .ok (a :: rest)

/-- A Vec field: exactly a JSON array, elements decoded in order. -/
def decodeList (dec : Json → Except String α) : Json → Except String (List α)
  | .arr xs => decodeElems dec xs
  | _ => .error "invalid type: expected a sequence"

def decodeSuperMetaFields : List (String × Json) → Option String → Option String →
    Except String SuperMeta
  | [], path?, size? =>
    match path? with
    | none => .error "missing field path"
    | some p =>
      match size? with
      | none => .error "missing field size"
      | some s => .ok { path := p, size := s }
  | (k, v) :: rest, path?, size? =>
    if k = "path" then
      match path? with
      | some _ => .error "duplicate field path"
      | none =>
        match decodeString v with
        | .error e => .error e
        | .ok s => decodeSuperMetaFields rest (some s) size?
    else if k = "size" then
      match size? with
      | some _ => .error "duplicate field size"
      | none =>
        match decodeString v with
        | .error e => .error e
        | .ok s => decodeSuperMetaFields rest path? (some s)
    else decodeSuperMetaFields rest path? size?

def decodeSuperMeta : Json → Except String SuperMeta
  | .obj fields => decodeSuperMetaFields fields none none
  | _ => .error "invalid type: expected struct SuperMeta"

def decodeBlockDeviceFields : List (String × Json) →
    Option String → Option String → Option String → Option String →
    Except String BlockDevice
  | [], bs?, n?, al?, sz? =>
    match bs? with
    | none => .error "missing field block_size"
    | some bs =>
      match n? with
      | none => .error "missing field name"
      | some n =>
        match al? with
        | none => .error "missing field alignment"
        | some al =>
          match sz? with
          | none => .error "missing field size"
          | some sz => .ok { block_size := bs, name := n, alignment := al, size := sz }
  | (k, v) :: rest, bs?, n?, al?, sz? =>
    if k = "block_size" then
      match bs? with
      | some _ => .error "duplicate field block_size"
      | none =>
        match decodeString v with
        | .error e => .error e
        | .ok s => decodeBlockDeviceFields rest (some s) n? al? sz?
    else if k = "name" then
      match n? with
      | some _ => .error "duplicate field name"
      | none =>
        match decodeString v with
        | .error e => .error e
        | .ok s => decodeBlockDeviceFields rest bs? (some s) al? sz?
    else if k = "alignment" then
      match al? with
      | some _ => .error "duplicate field alignment"
      | none =>
        match decodeString v with
        | .error e => .error e
        | .ok s => decodeBlockDeviceFields rest bs? n? (some s) sz?
    else if k = "size" then
      match sz? with
      | some _ => .error "duplicate field size"
      | none =>
        match decodeString v with
        | .error e => .error e
        | .ok s => decodeBlockDeviceFields rest bs? n? al? (some s)
    else decodeBlockDeviceFields rest bs? n? al? sz?

def decodeBlockDevice : Json → Except String BlockDevice
  | .obj fields => decodeBlockDeviceFields fields none none none none
  | _ => .error "invalid type: expected struct BlockDevice"

def decodeGroupFields : List (String × Json) → Option String → Option String →
    Except String Group
  | [], name?, max? =>
    match name? with
    | none => .error "missing field name"
    | some n => .ok { name := n, maximum_size := max?.getD "" }
  | (k, v) :: rest, name?, max? =>
    if k = "name" then
      match name? with
      | some _ => .error "duplicate field name"
      | none =>
        match decodeString v with
        | .error e => .error e
        | .ok s => decodeGroupFields rest (some s) max?
    else if k = "maximum_size" then
      match max? with
      | some _ => .error "duplicate field maximum_size"
      | none =>
        match decodeString v with
        | .error e => .error e
        | .ok s => decodeGroupFields rest name? (some s)
    else decodeGroupFields rest name? max?

def decodeGroup : Json → Except String Group
  | .obj fields => decodeGroupFields fields none none
  | _ => .error "invalid type: expected struct Group"

def decodePartitionFields : List (String × Json) →
    Option Bool → Option String → Option String → Option String → Option String →
    Except String Partition
  | [], dyn?, n?, gn?, p?, sz? =>
    match dyn? with
    | none => .error "missing field is_dynamic"
    | some d =>
      match n? with
      | none => .error "missing field name"
      | some n =>
        match gn? with
        | none => .error "missing field group_name"
        | some gn =>
          .ok { is_dynamic := d, name := n, group_name := gn,
                path := p?.getD "", size := sz?.getD "" }
  | (k, v) :: rest, dyn?, n?, gn?, p?, sz? =>
    if k = "is_dynamic" then
      match dyn? with
      | some _ => .error "duplicate field is_dynamic"
      | none =>
        match decodeBool v with
        | .error e => .error e
        | .ok b => decodePartitionFields rest (some b) n? gn? p? sz?
    else if k = "name" then
      match n? with
      | some _ => .error "duplicate field name"
      | none =>
        match decodeString v with
        | .error e => .error e
        | .ok s => decodePartitionFields rest dyn? (some s) gn? p? sz?
    else if k = "group_name" then
      match gn? with
      | some _ => .error "duplicate field group_name"
      | none =>
        match decodeString v with
        | .error e => .error e
        | .ok s => decodePartitionFields rest dyn? n? (some s) p? sz?
    else if k = "path" then
      match p? with
      | some _ => .error "duplicate field path"
      | none =>
        match decodeString v with
        | .error e => .error e
        | .ok s => decodePartitionFields rest dyn? n? gn? (some s) sz?
    else if k = "size" then
      match sz? with
      | some _ => .error "duplicate field size"
      | none =>
        match decodeString v with
        | .error e => .error e
        | .ok s => decodePartitionFields rest dyn? n? gn? p? (some s)
    else decodePartitionFields rest dyn? n? gn? p? sz?

def decodePartition : Json → Except String Partition
  | .obj fields => decodePartitionFields fields none none none none none
  | _ => .error "invalid type: expected struct Partition"

def decodeConfigFields : List (String × Json) →
    Option SuperMeta → Option String → Option (List BlockDevice) →
    Option (List Group) → Option String → Option (List Partition) →
    Except String PartitionConfig
  | [], sm?, nvt?, bds?, gs?, nvi?, ps? =>
    match sm? with
    | none => .error "missing field super_meta"
    | some sm =>
      match nvt? with
      | none => .error "missing field nv_text"
      | some nvt =>
        match bds? with
        | none => .error "missing field block_devices"
        | some bds =>
          match gs? with
          | none => .error "missing field groups"
          | some gs =>
            match nvi? with
            | none => .error "missing field nv_id"
            | some nvi =>
              match ps? with
              | none => .error "missing field partitions"
              | some ps =>
                .ok { super_meta := sm, nv_text := nvt, block_devices := bds,
                      groups := gs, nv_id := nvi, partitions := ps }
  | (k, v) :: rest, sm?, nvt?, bds?, gs?, nvi?, ps? =>
    if k = "super_meta" then
      match sm? with
      | some _ => .error "duplicate field super_meta"
      | none =>
        match decodeSuperMeta v with
        | .error e => .error e
        | .ok x => decodeConfigFields rest (some x) nvt? bds? gs? nvi? ps?
    else if k = "nv_text" then
      match nvt? with
      | some _ => .error "duplicate field nv_text"
      | none =>
        match decodeString v with
        | .error e => .error e
        | .ok x => decodeConfigFields rest sm? (some x) bds? gs? nvi? ps?
    else if k = "block_devices" then
      match bds? with
      | some _ => .error "duplicate field block_devices"
      | none =>
        match decodeList decodeBlockDevice v with
        | .error e => .error e
        | .ok x => decodeConfigFields rest sm? nvt? (some x) gs? nvi? ps?
    else if k = "groups" then
      match gs? with
      | some _ => .error "duplicate field groups"
      | none =>
        match decodeList decodeGroup v with
        | .error e => .error e
        | .ok x => decodeConfigFields rest sm? nvt? bds? (some x) nvi? ps?
    else if k = "nv_id" then
      match nvi? with
      | some _ => .error "duplicate field nv_id"
      | none =>
        match decodeString v with
        | .error e => .error e
        | .ok x => decodeConfigFields rest sm? nvt? bds? gs? (some x) ps?
    else if k = "partitions" then
      match ps? with
      | some _ => .error "duplicate field partitions"
      | none =>
        match decodeList decodePartition v with
        | .error e => .error e
        | .ok x => decodeConfigFields rest sm? nvt? bds? gs? nvi? (some x)
    else decodeConfigFields rest sm? nvt? bds? gs? nvi? ps?

def decodePartitionConfig : Json → Except String PartitionConfig
  | .obj fields => decodeConfigFields fields none none none none none none
  | _ => .error "invalid type: expected struct PartitionConfig"

/-! ## The load operation -/

/-- The file system seen by the loader, in its two real phases.  Opening a
path (File::open) either fails with an io error or yields an opened file;
reading that file to its end (which happens inside serde_json::from_reader)
either fails with an io error or yields the UTF-8 contents.  A directory on
Linux, for example, opens successfully but fails at the read.  Errors are
carried as their display text. -/
def FileSystem : Type := String → Except String (Except String String)

/-- Rust fn read_partition_config: File::open, then serde_json::from_reader
on the handle.  An open failure becomes JsonParseError::FileError via the
From impl.  A read failure occurs inside from_reader and surfaces as a
serde_json error, hence JsonParseError::JsonError, exactly like a syntax or
shape failure.  A fully read stream is parsed and decoded into the
configuration. -/
def read_partition_config (fs : FileSystem) (path : String) :
    Except JsonParseError PartitionConfig :=
  match fs path with
  | .error e => .error (.FileError e)
  | .ok (.error e) => .error (.JsonError e)
  | .ok (.ok contents) =>
    match parseJson contents with
    | .error e => .error (.JsonError e)
    | .ok j =>
      match decodePartitionConfig j with
      | .error e => .error (.JsonError e)
      | .ok config => .ok config

/-! ## Canonical JSON images of the records

These encoders follow the schema of the input file: every declared key
present, in declaration order.  They let the claims quantify over all
schema-shaped inputs. -/

def SuperMeta.toJson (m : SuperMeta) : Json :=
  .obj [("path", .str m.path), ("size", .str m.size)]

def BlockDevice.toJson (b : BlockDevice) : Json :=
  .obj [("block_size", .str b.block_size), ("name", .str b.name),
        ("alignment", .str b.alignment), ("size", .str b.size)]

def Group.toJson (g : Group) : Json :=
  .obj [("name", .str g.name), ("maximum_size", .str g.maximum_size)]

def Partition.toJson (p : Partition) : Json :=
  .obj [("is_dynamic", .bool p.is_dynamic), ("name", .str p.name),
        ("group_name", .str p.group_name), ("path", .str p.path),
        ("size", .str p.size)]

def PartitionConfig.toJson (c : PartitionConfig) : Json :=
  .obj [("super_meta", c.super_meta.toJson),
        ("nv_text", .str c.nv_text),
        ("block_devices", .arr (c.block_devices.map BlockDevice.toJson)),
        ("groups", .arr (c.groups.map Group.toJson)),
        ("nv_id", .str c.nv_id),
        ("partitions", .arr (c.partitions.map Partition.toJson))]

/-- A Group object with the optional maximum_size key absent. -/
def Group.toJsonMin (n : String) : Json := .obj [("name", .str n)]

/-- A Partition object with the optional path and size keys absent. -/
def Partition.toJsonMin (d : Bool) (n gn : String) : Json :=
  .obj [("is_dynamic", .bool d), ("name", .str n), ("group_name", .str gn)]

/-- A schema-shaped configuration document in which every group omits
maximum_size and every partition omits path and size. -/
def minimalConfigJson (sm : SuperMeta) (nvt nvi : String)
    (bds : List BlockDevice) (gnames : List String)
    (parts : List (Bool × String × String)) : Json :=
  .obj [("super_meta", sm.toJson),
        ("nv_text", .str nvt),
        ("block_devices", .arr (bds.map BlockDevice.toJson)),
        ("groups", .arr (gnames.map Group.toJsonMin)),
        ("nv_id", .str nvi),
        ("partitions", .arr (parts.map fun t => Partition.toJsonMin t.1 t.2.1 t.2.2))]

/-- The keys of a JSON object member list. -/
def keysOf (fields : List (String × Json)) : List String :=
  fields.map Prod.fst

/-- The value of the first member with the given key, if any.  This is the
occurrence the serde visitor binds to a field (a second occurrence is a
duplicate-field error). -/
def firstVal (key : String) : List (String × Json) → Option Json
  | [] => none
  | (k, v) :: rest => if k = key then some v else firstVal key rest

/-! ## Decoder lemmas -/

theorem decodeElems_map_of (dec : Json → Except String α) (f : β → Json)
    (g : β → α) (h : ∀ b, dec (f b) = .ok (g b)) (l : List β) :
    decodeElems dec (l.map f) = .ok (l.map g) := by
  induction l with
  | nil => rfl
  | cons b rest ih => simp [decodeElems, h b, ih]

theorem decodeSuperMeta_toJson (m : SuperMeta) :
    decodeSuperMeta m.toJson = .ok m := rfl

theorem decodeBlockDevice_toJson (b : BlockDevice) :
    decodeBlockDevice b.toJson = .ok b := rfl

theorem decodeGroup_toJson (g : Group) :
    decodeGroup g.toJson = .ok g := rfl

theorem decodePartition_toJson (p : Partition) :
    decodePartition p.toJson = .ok p := rfl

theorem decodeGroup_toJsonMin (n : String) :
    decodeGroup (Group.toJsonMin n) = .ok { name := n, maximum_size := "" } := rfl

theorem decodePartition_toJsonMin (d : Bool) (n gn : String) :
    decodePartition (Partition.toJsonMin d n gn) =
      .ok { is_dynamic := d, name := n, group_name := gn, path := "", size := "" } := rfl

theorem decodeElems_blockDevices (l : List BlockDevice) :
    decodeElems decodeBlockDevice (l.map BlockDevice.toJson) = .ok l := by
  simpa using decodeElems_map_of decodeBlockDevice BlockDevice.toJson id
    (fun b => decodeBlockDevice_toJson b) l

theorem decodeElems_groups (l : List Group) :
    decodeElems decodeGroup (l.map Group.toJson) = .ok l := by
  simpa using decodeElems_map_of decodeGroup Group.toJson id
    (fun g => decodeGroup_toJson g) l

theorem decodeElems_partitions (l : List Partition) :
    decodeElems decodePartition (l.map Partition.toJson) = .ok l := by
  simpa using decodeElems_map_of decodePartition Partition.toJson id
    (fun p => decodePartition_toJson p) l

theorem decodeElems_groupsMin (l : List String) :
    decodeElems decodeGroup (l.map Group.toJsonMin) =
      .ok (l.map fun n => { name := n, maximum_size := "" }) :=
  decodeElems_map_of decodeGroup Group.toJsonMin _ (fun n => decodeGroup_toJsonMin n) l

theorem decodeElems_partsMin (l : List (Bool × String × String)) :
    decodeElems decodePartition (l.map fun t => Partition.toJsonMin t.1 t.2.1 t.2.2) =
      .ok (l.map fun t =>
        { is_dynamic := t.1, name := t.2.1, group_name := t.2.2, path := "", size := "" }) :=
  decodeElems_map_of decodePartition _ _
    (fun t => decodePartition_toJsonMin t.1 t.2.1 t.2.2) l

theorem decodePartitionConfig_toJson (c : PartitionConfig) :
    decodePartitionConfig c.toJson = .ok c := by
  simp [PartitionConfig.toJson, decodePartitionConfig, decodeConfigFields,
        decodeSuperMeta_toJson, decodeList, decodeString,
        decodeElems_blockDevices, decodeElems_groups, decodeElems_partitions]

theorem decodeMinimalConfig (sm : SuperMeta) (nvt nvi : String)
    (bds : List BlockDevice) (gnames : List String)
    (parts : List (Bool × String × String)) :
    decodePartitionConfig (minimalConfigJson sm nvt nvi bds gnames parts) =
      .ok { super_meta := sm, nv_text := nvt, block_devices := bds,
            groups := gnames.map fun n => { name := n, maximum_size := "" },
            nv_id := nvi,
            partitions := parts.map fun t =>
              { is_dynamic := t.1, name := t.2.1, group_name := t.2.2,
                path := "", size := "" } } := by
  simp [minimalConfigJson, decodePartitionConfig, decodeConfigFields,
        decodeSuperMeta_toJson, decodeList, decodeString,
        decodeElems_blockDevices, decodeElems_groupsMin, decodeElems_partsMin]

theorem keysOf_cons (k : String) (v : Json) (rest : List (String × Json)) :
    keysOf ((k, v) :: rest) = k :: keysOf rest := rfl

/-- A successful SuperMeta decode saw each required key (unless the
corresponding accumulator was already filled). -/
theorem decodeSuperMetaFields_ok_required (fields : List (String × Json))
    (path? size? : Option String) (m : SuperMeta)
    (h : decodeSuperMetaFields fields path? size? = .ok m) :
    (path?.isSome = true ∨ "path" ∈ keysOf fields) ∧
    (size?.isSome = true ∨ "size" ∈ keysOf fields) := by
  induction fields generalizing path? size? with
  | nil =>
    cases path? with
    | none => simp [decodeSuperMetaFields] at h
    | some p =>
      cases size? with
      | none => simp [decodeSuperMetaFields] at h
      | some s => simp
  | cons kv rest ih =>
    obtain ⟨k, v⟩ := kv
    rw [keysOf_cons]
    simp only [decodeSuperMetaFields] at h
    by_cases hk1 : k = "path"
    · rw [if_pos hk1] at h
      refine ⟨Or.inr (by simp [hk1]), ?_⟩
      cases hp : path? <;> rw [hp] at h
      · cases hdv : decodeString v <;> rw [hdv] at h
        · exact Except.noConfusion h
        · rcases (ih _ _ h).2 with h2 | h2
          · exact Or.inl h2
          · exact Or.inr (List.mem_cons_of_mem _ h2)
      · exact Except.noConfusion h
    · rw [if_neg hk1] at h
      by_cases hk2 : k = "size"
      · rw [if_pos hk2] at h
        refine ⟨?_, Or.inr (by simp [hk2])⟩
        cases hs : size? <;> rw [hs] at h
        · cases hdv : decodeString v <;> rw [hdv] at h
          · exact Except.noConfusion h
          · rcases (ih _ _ h).1 with h2 | h2
            · exact Or.inl h2
            · exact Or.inr (List.mem_cons_of_mem _ h2)
        · exact Except.noConfusion h
      · rw [if_neg hk2] at h
        rcases ih _ _ h with ⟨h1, h2⟩
        refine ⟨?_, ?_⟩
        · rcases h1 with h1 | h1
          · exact Or.inl h1
          · exact Or.inr (List.mem_cons_of_mem _ h1)
        · rcases h2 with h2 | h2
          · exact Or.inl h2
          · exact Or.inr (List.mem_cons_of_mem _ h2)

theorem or_mem_cons {a : Prop} {x k : String} {l : List String}
    (h : a ∨ x ∈ l) : a ∨ x ∈ k :: l :=
  h.imp id (List.mem_cons_of_mem _)

/-- A successful Group decode saw the required name key. -/
theorem decodeGroupFields_ok_required (fields : List (String × Json))
    (name? max? : Option String) (g : Group)
    (h : decodeGroupFields fields name? max? = .ok g) :
    name?.isSome = true ∨ "name" ∈ keysOf fields := by
  induction fields generalizing name? max? with
  | nil =>
    cases name? with
    | none => simp [decodeGroupFields] at h
    | some n => simp
  | cons kv rest ih =>
    obtain ⟨k, v⟩ := kv
    rw [keysOf_cons]
    simp only [decodeGroupFields] at h
    by_cases hk1 : k = "name"
    · exact Or.inr (by simp [hk1])
    · rw [if_neg hk1] at h
      by_cases hk2 : k = "maximum_size"
      · rw [if_pos hk2] at h
        cases hm : max? <;> rw [hm] at h
        · cases hdv : decodeString v <;> rw [hdv] at h
          · exact Except.noConfusion h
          · exact or_mem_cons (ih _ _ h)
        · exact Except.noConfusion h
      · rw [if_neg hk2] at h
        exact or_mem_cons (ih _ _ h)

/-- A successful Partition decode saw each required key. -/
theorem decodePartitionFields_ok_required (fields : List (String × Json))
    (dyn? : Option Bool) (n? gn? p? sz? : Option String) (part : Partition)
    (h : decodePartitionFields fields dyn? n? gn? p? sz? = .ok part) :
    (dyn?.isSome = true ∨ "is_dynamic" ∈ keysOf fields) ∧
    (n?.isSome = true ∨ "name" ∈ keysOf fields) ∧
    (gn?.isSome = true ∨ "group_name" ∈ keysOf fields) := by
  induction fields generalizing dyn? n? gn? p? sz? with
  | nil =>
    cases dyn? with
    | none => simp [decodePartitionFields] at h
    | some d =>
      cases n? with
      | none => simp [decodePartitionFields] at h
      | some n =>
        cases gn? with
        | none => simp [decodePartitionFields] at h
        | some gn => simp
  | cons kv rest ih =>
    obtain ⟨k, v⟩ := kv
    rw [keysOf_cons]
    simp only [decodePartitionFields] at h
    by_cases hk1 : k = "is_dynamic"
    · rw [if_pos hk1] at h
      cases hx : dyn? <;> rw [hx] at h
      · cases hdv : decodeBool v <;> rw [hdv] at h
        · exact Except.noConfusion h
        · obtain ⟨i1, i2, i3⟩ := ih _ _ _ _ _ h
          exact ⟨Or.inr (by simp [hk1]), or_mem_cons i2, or_mem_cons i3⟩
      · exact Except.noConfusion h
    · rw [if_neg hk1] at h
      by_cases hk2 : k = "name"
      · rw [if_pos hk2] at h
        cases hx : n? <;> rw [hx] at h
        · cases hdv : decodeString v <;> rw [hdv] at h
          · exact Except.noConfusion h
          · obtain ⟨i1, i2, i3⟩ := ih _ _ _ _ _ h
            exact ⟨or_mem_cons i1, Or.inr (by simp [hk2]), or_mem_cons i3⟩
        · exact Except.noConfusion h
      · rw [if_neg hk2] at h
        by_cases hk3 : k = "group_name"
        · rw [if_pos hk3] at h
          cases hx : gn? <;> rw [hx] at h
          · cases hdv : decodeString v <;> rw [hdv] at h
            · exact Except.noConfusion h
            · obtain ⟨i1, i2, i3⟩ := ih _ _ _ _ _ h
              exact ⟨or_mem_cons i1, or_mem_cons i2, Or.inr (by simp [hk3])⟩
          · exact Except.noConfusion h
        · rw [if_neg hk3] at h
          by_cases hk4 : k = "path"
          · rw [if_pos hk4] at h
            cases hx : p? <;> rw [hx] at h
            · cases hdv : decodeString v <;> rw [hdv] at h
              · exact Except.noConfusion h
              · obtain ⟨i1, i2, i3⟩ := ih _ _ _ _ _ h
                exact ⟨or_mem_cons i1, or_mem_cons i2, or_mem_cons i3⟩
            · exact Except.noConfusion h
          · rw [if_neg hk4] at h
            by_cases hk5 : k = "size"
            · rw [if_pos hk5] at h
              cases hx : sz? <;> rw [hx] at h
              · cases hdv : decodeString v <;> rw [hdv] at h
                · exact Except.noConfusion h
                · obtain ⟨i1, i2, i3⟩ := ih _ _ _ _ _ h
                  exact ⟨or_mem_cons i1, or_mem_cons i2, or_mem_cons i3⟩
              · exact Except.noConfusion h
            · rw [if_neg hk5] at h
              obtain ⟨i1, i2, i3⟩ := ih _ _ _ _ _ h
              exact ⟨or_mem_cons i1, or_mem_cons i2, or_mem_cons i3⟩

/-- A successful BlockDevice decode saw each required key. -/
theorem decodeBlockDeviceFields_ok_required (fields : List (String × Json))
    (bs? n? al? sz? : Option String) (b : BlockDevice)
    (h : decodeBlockDeviceFields fields bs? n? al? sz? = .ok b) :
    (bs?.isSome = true ∨ "block_size" ∈ keysOf fields) ∧
    (n?.isSome = true ∨ "name" ∈ keysOf fields) ∧
    (al?.isSome = true ∨ "alignment" ∈ keysOf fields) ∧
    (sz?.isSome = true ∨ "size" ∈ keysOf fields) := by
  induction fields generalizing bs? n? al? sz? with
  | nil =>
    cases bs? with
    | none => simp [decodeBlockDeviceFields] at h
    | some bs =>
      cases n? with
      | none => simp [decodeBlockDeviceFields] at h
      | some n =>
        cases al? with
        | none => simp [decodeBlockDeviceFields] at h
        | some al =>
          cases sz? with
          | none => simp [decodeBlockDeviceFields] at h
          | some sz => simp
  | cons kv rest ih =>
    obtain ⟨k, v⟩ := kv
    rw [keysOf_cons]
    simp only [decodeBlockDeviceFields] at h
    by_cases hk1 : k = "block_size"
    · rw [if_pos hk1] at h
      cases hx : bs? <;> rw [hx] at h
      · cases hdv : decodeString v <;> rw [hdv] at h
        · exact Except.noConfusion h
        · obtain ⟨i1, i2, i3, i4⟩ := ih _ _ _ _ h
          exact ⟨Or.inr (by simp [hk1]), or_mem_cons i2, or_mem_cons i3, or_mem_cons i4⟩
      · exact Except.noConfusion h
    · rw [if_neg hk1] at h
      by_cases hk2 : k = "name"
      · rw [if_pos hk2] at h
        cases hx : n? <;> rw [hx] at h
        · cases hdv : decodeString v <;> rw [hdv] at h
          · exact Except.noConfusion h
          · obtain ⟨i1, i2, i3, i4⟩ := ih _ _ _ _ h
            exact ⟨or_mem_cons i1, Or.inr (by simp [hk2]), or_mem_cons i3, or_mem_cons i4⟩
        · exact Except.noConfusion h
      · rw [if_neg hk2] at h
        by_cases hk3 : k = "alignment"
        · rw [if_pos hk3] at h
          cases hx : al? <;> rw [hx] at h
          · cases hdv : decodeString v <;> rw [hdv] at h
            · exact Except.noConfusion h
            · obtain ⟨i1, i2, i3, i4⟩ := ih _ _ _ _ h
              exact ⟨or_mem_cons i1, or_mem_cons i2, Or.inr (by simp [hk3]), or_mem_cons i4⟩
          · exact Except.noConfusion h
        · rw [if_neg hk3] at h
          by_cases hk4 : k = "size"
          · rw [if_pos hk4] at h
            cases hx : sz? <;> rw [hx] at h
            · cases hdv : decodeString v <;> rw [hdv] at h
              · exact Except.noConfusion h
              · obtain ⟨i1, i2, i3, i4⟩ := ih _ _ _ _ h
                exact ⟨or_mem_cons i1, or_mem_cons i2, or_mem_cons i3, Or.inr (by simp [hk4])⟩
            · exact Except.noConfusion h
          · rw [if_neg hk4] at h
            obtain ⟨i1, i2, i3, i4⟩ := ih _ _ _ _ h
            exact ⟨or_mem_cons i1, or_mem_cons i2, or_mem_cons i3, or_mem_cons i4⟩

/-- A successful PartitionConfig decode saw each required top-level key. -/
theorem decodeConfigFields_ok_required (fields : List (String × Json))
    (sm? : Option SuperMeta) (nvt? : Option String)
    (bds? : Option (List BlockDevice)) (gs? : Option (List Group))
    (nvi? : Option String) (ps? : Option (List Partition)) (c : PartitionConfig)
    (h : decodeConfigFields fields sm? nvt? bds? gs? nvi? ps? = .ok c) :
    (sm?.isSome = true ∨ "super_meta" ∈ keysOf fields) ∧
    (nvt?.isSome = true ∨ "nv_text" ∈ keysOf fields) ∧
    (bds?.isSome = true ∨ "block_devices" ∈ keysOf fields) ∧
    (gs?.isSome = true ∨ "groups" ∈ keysOf fields) ∧
    (nvi?.isSome = true ∨ "nv_id" ∈ keysOf fields) ∧
    (ps?.isSome = true ∨ "partitions" ∈ keysOf fields) := by
  induction fields generalizing sm? nvt? bds? gs? nvi? ps? with
  | nil =>
    cases sm? with
    | none => simp [decodeConfigFields] at h
    | some sm =>
      cases nvt? with
      | none => simp [decodeConfigFields] at h
      | some nvt =>
        cases bds? with
        | none => simp [decodeConfigFields] at h
        | some bds =>
          cases gs? with
          | none => simp [decodeConfigFields] at h
          | some gs =>
            cases nvi? with
            | none => simp [decodeConfigFields] at h
            | some nvi =>
              cases ps? with
              | none => simp [decodeConfigFields] at h
              | some ps => simp
  | cons kv rest ih =>
    obtain ⟨k, v⟩ := kv
    rw [keysOf_cons]
    simp only [decodeConfigFields] at h
    by_cases hk1 : k = "super_meta"
    · rw [if_pos hk1] at h
      cases hx : sm? <;> rw [hx] at h
      · cases hdv : decodeSuperMeta v <;> rw [hdv] at h
        · exact Except.noConfusion h
        · obtain ⟨i1, i2, i3, i4, i5, i6⟩ := ih _ _ _ _ _ _ h
          exact ⟨Or.inr (by simp [hk1]), or_mem_cons i2, or_mem_cons i3,
                 or_mem_cons i4, or_mem_cons i5, or_mem_cons i6⟩
      · exact Except.noConfusion h
    · rw [if_neg hk1] at h
      by_cases hk2 : k = "nv_text"
      · rw [if_pos hk2] at h
        cases hx : nvt? <;> rw [hx] at h
        · cases hdv : decodeString v <;> rw [hdv] at h
          · exact Except.noConfusion h
          · obtain ⟨i1, i2, i3, i4, i5, i6⟩ := ih _ _ _ _ _ _ h
            exact ⟨or_mem_cons i1, Or.inr (by simp [hk2]), or_mem_cons i3,
                   or_mem_cons i4, or_mem_cons i5, or_mem_cons i6⟩
        · exact Except.noConfusion h
      · rw [if_neg hk2] at h
        by_cases hk3 : k = "block_devices"
        · rw [if_pos hk3] at h
          cases hx : bds? <;> rw [hx] at h
          · cases hdv : decodeList decodeBlockDevice v <;> rw [hdv] at h
            · exact Except.noConfusion h
            · obtain ⟨i1, i2, i3, i4, i5, i6⟩ := ih _ _ _ _ _ _ h
              exact ⟨or_mem_cons i1, or_mem_cons i2, Or.inr (by simp [hk3]),
                     or_mem_cons i4, or_mem_cons i5, or_mem_cons i6⟩
          · exact Except.noConfusion h
        · rw [if_neg hk3] at h
          by_cases hk4 : k = "groups"
          · rw [if_pos hk4] at h
            cases hx : gs? <;> rw [hx] at h
            · cases hdv : decodeList decodeGroup v <;> rw [hdv] at h
              · exact Except.noConfusion h
              · obtain ⟨i1, i2, i3, i4, i5, i6⟩ := ih _ _ _ _ _ _ h
                exact ⟨or_mem_cons i1, or_mem_cons i2, or_mem_cons i3,
                       Or.inr (by simp [hk4]), or_mem_cons i5, or_mem_cons i6⟩
            · exact Except.noConfusion h
          · rw [if_neg hk4] at h
            by_cases hk5 : k = "nv_id"
            · rw [if_pos hk5] at h
              cases hx : nvi? <;> rw [hx] at h
              · cases hdv : decodeString v <;> rw [hdv] at h
                · exact Except.noConfusion h
                · obtain ⟨i1, i2, i3, i4, i5, i6⟩ := ih _ _ _ _ _ _ h
                  exact ⟨or_mem_cons i1, or_mem_cons i2, or_mem_cons i3,
                         or_mem_cons i4, Or.inr (by simp [hk5]), or_mem_cons i6⟩
              · exact Except.noConfusion h
            · rw [if_neg hk5] at h
              by_cases hk6 : k = "partitions"
              · rw [if_pos hk6] at h
                cases hx : ps? <;> rw [hx] at h
                · cases hdv : decodeList decodePartition v <;> rw [hdv] at h
                  · exact Except.noConfusion h
                  · obtain ⟨i1, i2, i3, i4, i5, i6⟩ := ih _ _ _ _ _ _ h
                    exact ⟨or_mem_cons i1, or_mem_cons i2, or_mem_cons i3,
                           or_mem_cons i4, or_mem_cons i5, Or.inr (by simp [hk6])⟩
                · exact Except.noConfusion h
              · rw [if_neg hk6] at h
                obtain ⟨i1, i2, i3, i4, i5, i6⟩ := ih _ _ _ _ _ _ h
                exact ⟨or_mem_cons i1, or_mem_cons i2, or_mem_cons i3,
                       or_mem_cons i4, or_mem_cons i5, or_mem_cons i6⟩

/-- A string decode only succeeds on a JSON string, returned unchanged. -/
theorem decodeString_ok_str (j : Json) (s : String)
    (h : decodeString j = .ok s) : j = .str s := by
  cases j <;> simp_all [decodeString]

/-- Every element of a successfully decoded array decoded successfully. -/
theorem decodeElems_ok_mem (dec : Json → Except String α) (xs : List Json)
    (l : List α) (h : decodeElems dec xs = .ok l) :
    ∀ x ∈ xs, ∃ a, dec x = .ok a := by
  induction xs generalizing l with
  | nil => intro x hx; cases hx
  | cons y ys ih =>
    intro x hx
    simp only [decodeElems] at h
    cases hdv : dec y <;> rw [hdv] at h
    · exact Except.noConfusion h
    · cases hrest : decodeElems dec ys <;> rw [hrest] at h
      · exact Except.noConfusion h
      · rcases List.mem_cons.mp hx with rfl | hmem
        · exact ⟨_, hdv⟩
        · exact ih _ hrest x hmem

/-- A successful PartitionConfig decode decoded the first occurrence of each
container key (when that field was still unset). -/
theorem decodeConfigFields_ok_firstVal (fields : List (String × Json))
    (sm? : Option SuperMeta) (nvt? : Option String)
    (bds? : Option (List BlockDevice)) (gs? : Option (List Group))
    (nvi? : Option String) (ps? : Option (List Partition)) (c : PartitionConfig)
    (h : decodeConfigFields fields sm? nvt? bds? gs? nvi? ps? = .ok c) :
    (∀ v, sm? = none → firstVal "super_meta" fields = some v →
      ∃ x, decodeSuperMeta v = .ok x) ∧
    (∀ v, bds? = none → firstVal "block_devices" fields = some v →
      ∃ x, decodeList decodeBlockDevice v = .ok x) ∧
    (∀ v, gs? = none → firstVal "groups" fields = some v →
      ∃ x, decodeList decodeGroup v = .ok x) ∧
    (∀ v, ps? = none → firstVal "partitions" fields = some v →
      ∃ x, decodeList decodePartition v = .ok x) := by
  induction fields generalizing sm? nvt? bds? gs? nvi? ps? with
  | nil =>
    exact ⟨fun v _ hv => Option.noConfusion hv, fun v _ hv => Option.noConfusion hv,
           fun v _ hv => Option.noConfusion hv, fun v _ hv => Option.noConfusion hv⟩
  | cons kv rest ih =>
    obtain ⟨k, w⟩ := kv
    simp only [decodeConfigFields] at h
    simp only [firstVal]
    by_cases hk1 : k = "super_meta"
    · rw [if_pos hk1] at h
      cases hx : sm? <;> rw [hx] at h
      · cases hdv : decodeSuperMeta w <;> rw [hdv] at h
        · exact Except.noConfusion h
        · obtain ⟨i1, i2, i3, i4⟩ := ih _ _ _ _ _ _ h
          refine ⟨?_, ?_, ?_, ?_⟩
          · intro v _ hv
            rw [if_pos hk1] at hv
            cases hv
            exact ⟨_, hdv⟩
          · intro v hacc hv
            rw [if_neg (by simp [hk1])] at hv
            exact i2 v hacc hv
          · intro v hacc hv
            rw [if_neg (by simp [hk1])] at hv
            exact i3 v hacc hv
          · intro v hacc hv
            rw [if_neg (by simp [hk1])] at hv
            exact i4 v hacc hv
      · exact Except.noConfusion h
    · rw [if_neg hk1] at h
      by_cases hk2 : k = "nv_text"
      · rw [if_pos hk2] at h
        cases hx : nvt? <;> rw [hx] at h
        · cases hdv : decodeString w <;> rw [hdv] at h
          · exact Except.noConfusion h
          · obtain ⟨i1, i2, i3, i4⟩ := ih _ _ _ _ _ _ h
            refine ⟨?_, ?_, ?_, ?_⟩ <;> intro v hacc hv <;>
              rw [if_neg (by simp [hk2])] at hv
            · exact i1 v hacc hv
            · exact i2 v hacc hv
            · exact i3 v hacc hv
            · exact i4 v hacc hv
        · exact Except.noConfusion h
      · rw [if_neg hk2] at h
        by_cases hk3 : k = "block_devices"
        · rw [if_pos hk3] at h
          cases hx : bds? <;> rw [hx] at h
          · cases hdv : decodeList decodeBlockDevice w <;> rw [hdv] at h
            · exact Except.noConfusion h
            · obtain ⟨i1, i2, i3, i4⟩ := ih _ _ _ _ _ _ h
              refine ⟨?_, ?_, ?_, ?_⟩
              · intro v hacc hv
                rw [if_neg (by simp [hk3])] at hv
                exact i1 v hacc hv
              · intro v _ hv
                rw [if_pos hk3] at hv
                cases hv
                exact ⟨_, hdv⟩
              · intro v hacc hv
                rw [if_neg (by simp [hk3])] at hv
                exact i3 v hacc hv
              · intro v hacc hv
                rw [if_neg (by simp [hk3])] at hv
                exact i4 v hacc hv
          · exact Except.noConfusion h
        · rw [if_neg hk3] at h
          by_cases hk4 : k = "groups"
          · rw [if_pos hk4] at h
            cases hx : gs? <;> rw [hx] at h
            · cases hdv : decodeList decodeGroup w <;> rw [hdv] at h
              · exact Except.noConfusion h
              · obtain ⟨i1, i2, i3, i4⟩ := ih _ _ _ _ _ _ h
                refine ⟨?_, ?_, ?_, ?_⟩
                · intro v hacc hv
                  rw [if_neg (by simp [hk4])] at hv
                  exact i1 v hacc hv
                · intro v hacc hv
                  rw [if_neg (by simp [hk4])] at hv
                  exact i2 v hacc hv
                · intro v _ hv
                  rw [if_pos hk4] at hv
                  cases hv
                  exact ⟨_, hdv⟩
                · intro v hacc hv
                  rw [if_neg (by simp [hk4])] at hv
                  exact i4 v hacc hv
            · exact Except.noConfusion h
          · rw [if_neg hk4] at h
            by_cases hk5 : k = "nv_id"
            · rw [if_pos hk5] at h
              cases hx : nvi? <;> rw [hx] at h
              · cases hdv : decodeString w <;> rw [hdv] at h
                · exact Except.noConfusion h
                · obtain ⟨i1, i2, i3, i4⟩ := ih _ _ _ _ _ _ h
                  refine ⟨?_, ?_, ?_, ?_⟩ <;> intro v hacc hv <;>
                    rw [if_neg (by simp [hk5])] at hv
                  · exact i1 v hacc hv
                  · exact i2 v hacc hv
                  · exact i3 v hacc hv
                  · exact i4 v hacc hv
              · exact Except.noConfusion h
            · rw [if_neg hk5] at h
              by_cases hk6 : k = "partitions"
              · rw [if_pos hk6] at h
                cases hx : ps? <;> rw [hx] at h
                · cases hdv : decodeList decodePartition w <;> rw [hdv] at h
                  · exact Except.noConfusion h
                  · obtain ⟨i1, i2, i3, i4⟩ := ih _ _ _ _ _ _ h
                    refine ⟨?_, ?_, ?_, ?_⟩
                    · intro v hacc hv
                      rw [if_neg (by simp [hk6])] at hv
                      exact i1 v hacc hv
                    · intro v hacc hv
                      rw [if_neg (by simp [hk6])] at hv
                      exact i2 v hacc hv
                    · intro v hacc hv
                      rw [if_neg (by simp [hk6])] at hv
                      exact i3 v hacc hv
                    · intro v _ hv
                      rw [if_pos hk6] at hv
                      cases hv
                      exact ⟨_, hdv⟩
                · exact Except.noConfusion h
              · rw [if_neg hk6] at h
                obtain ⟨i1, i2, i3, i4⟩ := ih _ _ _ _ _ _ h
                refine ⟨?_, ?_, ?_, ?_⟩ <;> intro v hacc hv
                · rw [if_neg (by simp [hk1])] at hv
                  exact i1 v hacc hv
                · rw [if_neg (by simp [hk3])] at hv
                  exact i2 v hacc hv
                · rw [if_neg (by simp [hk4])] at hv
                  exact i3 v hacc hv
                · rw [if_neg (by simp [hk6])] at hv
                  exact i4 v hacc hv

/-- In a successfully decoded Group object, every member named by a
string-typed field holds a JSON string. -/
theorem decodeGroupFields_ok_str (fields : List (String × Json))
    (name? max? : Option String) (g : Group)
    (h : decodeGroupFields fields name? max? = .ok g) :
    ∀ k v, (k, v) ∈ fields → (k = "name" ∨ k = "maximum_size") →
      ∃ s, v = .str s := by
  induction fields generalizing name? max? with
  | nil => intro k v hv _; cases hv
  | cons kv rest ih =>
    obtain ⟨k0, w⟩ := kv
    intro k v hv hks
    simp only [decodeGroupFields] at h
    rcases List.mem_cons.mp hv with heq | hmem
    · injection heq with hk hw
      subst hk
      subst hw
      rcases hks with rfl | rfl
      · rw [if_pos rfl] at h
        cases hn : name? <;> rw [hn] at h
        · cases hdv : decodeString v <;> rw [hdv] at h
          · exact Except.noConfusion h
          · exact ⟨_, decodeString_ok_str _ _ hdv⟩
        · exact Except.noConfusion h
      · rw [if_neg (by decide), if_pos rfl] at h
        cases hm : max? <;> rw [hm] at h
        · cases hdv : decodeString v <;> rw [hdv] at h
          · exact Except.noConfusion h
          · exact ⟨_, decodeString_ok_str _ _ hdv⟩
        · exact Except.noConfusion h
    · by_cases hk1 : k0 = "name"
      · rw [if_pos hk1] at h
        cases hn : name? <;> rw [hn] at h
        · cases hdv : decodeString w <;> rw [hdv] at h
          · exact Except.noConfusion h
          · exact ih _ _ h k v hmem hks
        · exact Except.noConfusion h
      · rw [if_neg hk1] at h
        by_cases hk2 : k0 = "maximum_size"
        · rw [if_pos hk2] at h
          cases hm : max? <;> rw [hm] at h
          · cases hdv : decodeString w <;> rw [hdv] at h
            · exact Except.noConfusion h
            · exact ih _ _ h k v hmem hks
          · exact Except.noConfusion h
        · rw [if_neg hk2] at h
          exact ih _ _ h k v hmem hks

/-- In a successfully decoded BlockDevice object, every member named by a
string-typed field holds a JSON string. -/
theorem decodeBlockDeviceFields_ok_str (fields : List (String × Json))
    (bs? n? al? sz? : Option String) (b : BlockDevice)
    (h : decodeBlockDeviceFields fields bs? n? al? sz? = .ok b) :
    ∀ k v, (k, v) ∈ fields →
      (k = "block_size" ∨ k = "name" ∨ k = "alignment" ∨ k = "size") →
      ∃ s, v = .str s := by
  induction fields generalizing bs? n? al? sz? with
  | nil => intro k v hv _; cases hv
  | cons kv rest ih =>
    obtain ⟨k0, w⟩ := kv
    intro k v hv hks
    simp only [decodeBlockDeviceFields] at h
    rcases List.mem_cons.mp hv with heq | hmem
    · injection heq with hk hw
      subst hk
      subst hw
      rcases hks with rfl | rfl | rfl | rfl
      · rw [if_pos rfl] at h
        cases hx : bs? <;> rw [hx] at h
        · cases hdv : decodeString v <;> rw [hdv] at h
          · exact Except.noConfusion h
          · exact ⟨_, decodeString_ok_str _ _ hdv⟩
        · exact Except.noConfusion h
      · rw [if_neg (by decide), if_pos rfl] at h
        cases hx : n? <;> rw [hx] at h
        · cases hdv : decodeString v <;> rw [hdv] at h
          · exact Except.noConfusion h
          · exact ⟨_, decodeString_ok_str _ _ hdv⟩
        · exact Except.noConfusion h
      · rw [if_neg (by decide), if_neg (by decide), if_pos rfl] at h
        cases hx : al? <;> rw [hx] at h
        · cases hdv : decodeString v <;> rw [hdv] at h
          · exact Except.noConfusion h
          · exact ⟨_, decodeString_ok_str _ _ hdv⟩
        · exact Except.noConfusion h
      · rw [if_neg (by decide), if_neg (by decide), if_neg (by decide),
           if_pos rfl] at h
        cases hx : sz? <;> rw [hx] at h
        · cases hdv : decodeString v <;> rw [hdv] at h
          · exact Except.noConfusion h
          · exact ⟨_, decodeString_ok_str _ _ hdv⟩
        · exact Except.noConfusion h
    · by_cases hk1 : k0 = "block_size"
      · rw [if_pos hk1] at h
        cases hx : bs? <;> rw [hx] at h
        · cases hdv : decodeString w <;> rw [hdv] at h
          · exact Except.noConfusion h
          · exact ih _ _ _ _ h k v hmem hks
        · exact Except.noConfusion h
      · rw [if_neg hk1] at h
        by_cases hk2 : k0 = "name"
        · rw [if_pos hk2] at h
          cases hx : n? <;> rw [hx] at h
          · cases hdv : decodeString w <;> rw [hdv] at h
            · exact Except.noConfusion h
            · exact ih _ _ _ _ h k v hmem hks
          · exact Except.noConfusion h
        · rw [if_neg hk2] at h
          by_cases hk3 : k0 = "alignment"
          · rw [if_pos hk3] at h
            cases hx : al? <;> rw [hx] at h
            · cases hdv : decodeString w <;> rw [hdv] at h
              · exact Except.noConfusion h
              · exact ih _ _ _ _ h k v hmem hks
            · exact Except.noConfusion h
          · rw [if_neg hk3] at h
            by_cases hk4 : k0 = "size"
            · rw [if_pos hk4] at h
              cases hx : sz? <;> rw [hx] at h
              · cases hdv : decodeString w <;> rw [hdv] at h
                · exact Except.noConfusion h
                · exact ih _ _ _ _ h k v hmem hks
              · exact Except.noConfusion h
            · rw [if_neg hk4] at h
              exact ih _ _ _ _ h k v hmem hks

/-- In a successfully decoded Partition object, every member named by a
string-typed field holds a JSON string (in particular path and size are
never null when present). -/
theorem decodePartitionFields_ok_str (fields : List (String × Json))
    (dyn? : Option Bool) (n? gn? p? sz? : Option String) (part : Partition)
    (h : decodePartitionFields fields dyn? n? gn? p? sz? = .ok part) :
    ∀ k v, (k, v) ∈ fields →
      (k = "name" ∨ k = "group_name" ∨ k = "path" ∨ k = "size") →
      ∃ s, v = .str s := by
  induction fields generalizing dyn? n? gn? p? sz? with
  | nil => intro k v hv _; cases hv
  | cons kv rest ih =>
    obtain ⟨k0, w⟩ := kv
    intro k v hv hks
    simp only [decodePartitionFields] at h
    rcases List.mem_cons.mp hv with heq | hmem
    · injection heq with hk hw
      subst hk
      subst hw
      rcases hks with rfl | rfl | rfl | rfl
      · rw [if_neg (by decide), if_pos rfl] at h
        cases hx : n? <;> rw [hx] at h
        · cases hdv : decodeString v <;> rw [hdv] at h
          · exact Except.noConfusion h
          · exact ⟨_, decodeString_ok_str _ _ hdv⟩
        · exact Except.noConfusion h
      · rw [if_neg (by decide), if_neg (by decide), if_pos rfl] at h
        cases hx : gn? <;> rw [hx] at h
        · cases hdv : decodeString v <;> rw [hdv] at h
          · exact Except.noConfusion h
          · exact ⟨_, decodeString_ok_str _ _ hdv⟩
        · exact Except.noConfusion h
      · rw [if_neg (by decide), if_neg (by decide), if_neg (by decide),
           if_pos rfl] at h
        cases hx : p? <;> rw [hx] at h
        · cases hdv : decodeString v <;> rw [hdv] at h
          · exact Except.noConfusion h
          · exact ⟨_, decodeString_ok_str _ _ hdv⟩
        · exact Except.noConfusion h
      · rw [if_neg (by decide), if_neg (by decide), if_neg (by decide),
           if_neg (by decide), if_pos rfl] at h
        cases hx : sz? <;> rw [hx] at h
        · cases hdv : decodeString v <;> rw [hdv] at h
          · exact Except.noConfusion h
          · exact ⟨_, decodeString_ok_str _ _ hdv⟩
        · exact Except.noConfusion h
    · by_cases hk1 : k0 = "is_dynamic"
      · rw [if_pos hk1] at h
        cases hx : dyn? <;> rw [hx] at h
        · cases hdv : decodeBool w <;> rw [hdv] at h
          · exact Except.noConfusion h
          · exact ih _ _ _ _ _ h k v hmem hks
        · exact Except.noConfusion h
      · rw [if_neg hk1] at h
        by_cases hk2 : k0 = "name"
        · rw [if_pos hk2] at h
          cases hx : n? <;> rw [hx] at h
          · cases hdv : decodeString w <;> rw [hdv] at h
            · exact Except.noConfusion h
            · exact ih _ _ _ _ _ h k v hmem hks
          · exact Except.noConfusion h
        · rw [if_neg hk2] at h
          by_cases hk3 : k0 = "group_name"
          · rw [if_pos hk3] at h
            cases hx : gn? <;> rw [hx] at h
            · cases hdv : decodeString w <;> rw [hdv] at h
              · exact Except.noConfusion h
              · exact ih _ _ _ _ _ h k v hmem hks
            · exact Except.noConfusion h
          · rw [if_neg hk3] at h
            by_cases hk4 : k0 = "path"
            · rw [if_pos hk4] at h
              cases hx : p? <;> rw [hx] at h
              · cases hdv : decodeString w <;> rw [hdv] at h
                · exact Except.noConfusion h
                · exact ih _ _ _ _ _ h k v hmem hks
              · exact Except.noConfusion h
            · rw [if_neg hk4] at h
              by_cases hk5 : k0 = "size"
              · rw [if_pos hk5] at h
                cases hx : sz? <;> rw [hx] at h
                · cases hdv : decodeString w <;> rw [hdv] at h
                  · exact Except.noConfusion h
                  · exact ih _ _ _ _ _ h k v hmem hks
                · exact Except.noConfusion h
              · rw [if_neg hk5] at h
                exact ih _ _ _ _ _ h k v hmem hks

/-- A decode failure surfaces as the JsonError kind of the load. -/
theorem read_jsonError_of_not_ok (fs : FileSystem) (p s : String) (j : Json)
    (hopen : fs p = .ok (.ok s)) (hparse : parseJson s = .ok j)
    (hnot : ∀ c, decodePartitionConfig j ≠ .ok c) :
    ∃ e, read_partition_config fs p = .error (.JsonError e) := by
  cases hdec : decodePartitionConfig j with
  | error e => exact ⟨e, by simp [read_partition_config, hopen, hparse, hdec]⟩
  | ok c => exact absurd hdec (hnot c)

/-- A whole-config success decoded the super_meta object successfully. -/
theorem config_ok_superMeta (fields smf : List (String × Json))
    (c : PartitionConfig)
    (hdec : decodePartitionConfig (.obj fields) = .ok c)
    (hfv : firstVal "super_meta" fields = some (.obj smf)) :
    ∃ m, decodeSuperMetaFields smf none none = .ok m :=
  (decodeConfigFields_ok_firstVal fields none none none none none none c hdec).1
    _ rfl hfv

/-- A whole-config success decoded every block device object successfully. -/
theorem config_ok_blockDevice (fields bf : List (String × Json))
    (elems : List Json) (c : PartitionConfig)
    (hdec : decodePartitionConfig (.obj fields) = .ok c)
    (hfv : firstVal "block_devices" fields = some (.arr elems))
    (hmem : (.obj bf) ∈ elems) :
    ∃ b, decodeBlockDeviceFields bf none none none none = .ok b := by
  obtain ⟨x, hx⟩ :=
    (decodeConfigFields_ok_firstVal fields none none none none none none c hdec).2.1
      _ rfl hfv
  exact decodeElems_ok_mem decodeBlockDevice elems x hx _ hmem

/-- A whole-config success decoded every group object successfully. -/
theorem config_ok_group (fields gf : List (String × Json))
    (elems : List Json) (c : PartitionConfig)
    (hdec : decodePartitionConfig (.obj fields) = .ok c)
    (hfv : firstVal "groups" fields = some (.arr elems))
    (hmem : (.obj gf) ∈ elems) :
    ∃ g, decodeGroupFields gf none none = .ok g := by
  obtain ⟨x, hx⟩ :=
    (decodeConfigFields_ok_firstVal fields none none none none none none c hdec).2.2.1
      _ rfl hfv
  exact decodeElems_ok_mem decodeGroup elems x hx _ hmem

/-- A whole-config success decoded every partition object successfully. -/
theorem config_ok_partition (fields pf : List (String × Json))
    (elems : List Json) (c : PartitionConfig)
    (hdec : decodePartitionConfig (.obj fields) = .ok c)
    (hfv : firstVal "partitions" fields = some (.arr elems))
    (hmem : (.obj pf) ∈ elems) :
    ∃ a, decodePartitionFields pf none none none none none = .ok a := by
  obtain ⟨x, hx⟩ :=
    (decodeConfigFields_ok_firstVal fields none none none none none none c hdec).2.2.2
      _ rfl hfv
  exact decodeElems_ok_mem decodePartition elems x hx _ hmem

/-! ## Unknown keys are skipped -/

theorem decodeSuperMetaFields_skip (pre post : List (String × Json))
    (k : String) (v : Json) (path? size? : Option String)
    (h1 : k ≠ "path") (h2 : k ≠ "size") :
    decodeSuperMetaFields (pre ++ (k, v) :: post) path? size? =
      decodeSuperMetaFields (pre ++ post) path? size? := by
  induction pre generalizing path? size? with
  | nil => simp only [List.nil_append, decodeSuperMetaFields, if_neg h1, if_neg h2]
  | cons kv rest ih =>
    obtain ⟨k0, w⟩ := kv
    simp only [List.cons_append, decodeSuperMetaFields]
    by_cases hk1 : k0 = "path"
    · simp only [if_pos hk1]
      cases path?
      · cases decodeString w
        · rfl
        · exact ih _ _
      · rfl
    · simp only [if_neg hk1]
      by_cases hk2 : k0 = "size"
      · simp only [if_pos hk2]
        cases size?
        · cases decodeString w
          · rfl
          · exact ih _ _
        · rfl
      · simp only [if_neg hk2]
        exact ih _ _

theorem decodeBlockDeviceFields_skip (pre post : List (String × Json))
    (k : String) (v : Json) (bs? n? al? sz? : Option String)
    (h1 : k ≠ "block_size") (h2 : k ≠ "name") (h3 : k ≠ "alignment")
    (h4 : k ≠ "size") :
    decodeBlockDeviceFields (pre ++ (k, v) :: post) bs? n? al? sz? =
      decodeBlockDeviceFields (pre ++ post) bs? n? al? sz? := by
  induction pre generalizing bs? n? al? sz? with
  | nil =>
    simp only [List.nil_append, decodeBlockDeviceFields,
               if_neg h1, if_neg h2, if_neg h3, if_neg h4]
  | cons kv rest ih =>
    obtain ⟨k0, w⟩ := kv
    simp only [List.cons_append, decodeBlockDeviceFields]
    by_cases hk1 : k0 = "block_size"
    · simp only [if_pos hk1]
      cases bs?
      · cases decodeString w
        · rfl
        · exact ih _ _ _ _
      · rfl
    · simp only [if_neg hk1]
      by_cases hk2 : k0 = "name"
      · simp only [if_pos hk2]
        cases n?
        · cases decodeString w
          · rfl
          · exact ih _ _ _ _
        · rfl
      · simp only [if_neg hk2]
        by_cases hk3 : k0 = "alignment"
        · simp only [if_pos hk3]
          cases al?
          · cases decodeString w
            · rfl
            · exact ih _ _ _ _
          · rfl
        · simp only [if_neg hk3]
          by_cases hk4 : k0 = "size"
          · simp only [if_pos hk4]
            cases sz?
            · cases decodeString w
              · rfl
              · exact ih _ _ _ _
            · rfl
          · simp only [if_neg hk4]
            exact ih _ _ _ _

theorem decodeGroupFields_skip (pre post : List (String × Json))
    (k : String) (v : Json) (name? max? : Option String)
    (h1 : k ≠ "name") (h2 : k ≠ "maximum_size") :
    decodeGroupFields (pre ++ (k, v) :: post) name? max? =
      decodeGroupFields (pre ++ post) name? max? := by
  induction pre generalizing name? max? with
  | nil => simp only [List.nil_append, decodeGroupFields, if_neg h1, if_neg h2]
  | cons kv rest ih =>
    obtain ⟨k0, w⟩ := kv
    simp only [List.cons_append, decodeGroupFields]
    by_cases hk1 : k0 = "name"
    · simp only [if_pos hk1]
      cases name?
      · cases decodeString w
        · rfl
        · exact ih _ _
      · rfl
    · simp only [if_neg hk1]
      by_cases hk2 : k0 = "maximum_size"
      · simp only [if_pos hk2]
        cases max?
        · cases decodeString w
          · rfl
          · exact ih _ _
        · rfl
      · simp only [if_neg hk2]
        exact ih _ _

theorem decodePartitionFields_skip (pre post : List (String × Json))
    (k : String) (v : Json) (dyn? : Option Bool) (n? gn? p? sz? : Option String)
    (h1 : k ≠ "is_dynamic") (h2 : k ≠ "name") (h3 : k ≠ "group_name")
    (h4 : k ≠ "path") (h5 : k ≠ "size") :
    decodePartitionFields (pre ++ (k, v) :: post) dyn? n? gn? p? sz? =
      decodePartitionFields (pre ++ post) dyn? n? gn? p? sz? := by
  induction pre generalizing dyn? n? gn? p? sz? with
  | nil =>
    simp only [List.nil_append, decodePartitionFields,
               if_neg h1, if_neg h2, if_neg h3, if_neg h4, if_neg h5]
  | cons kv rest ih =>
    obtain ⟨k0, w⟩ := kv
    simp only [List.cons_append, decodePartitionFields]
    by_cases hk1 : k0 = "is_dynamic"
    · simp only [if_pos hk1]
      cases dyn?
      · cases decodeBool w
        · rfl
        · exact ih _ _ _ _ _
      · rfl
    · simp only [if_neg hk1]
      by_cases hk2 : k0 = "name"
      · simp only [if_pos hk2]
        cases n?
        · cases decodeString w
          · rfl
          · exact ih _ _ _ _ _
        · rfl
      · simp only [if_neg hk2]
        by_cases hk3 : k0 = "group_name"
        · simp only [if_pos hk3]
          cases gn?
          · cases decodeString w
            · rfl
            · exact ih _ _ _ _ _
          · rfl
        · simp only [if_neg hk3]
          by_cases hk4 : k0 = "path"
          · simp only [if_pos hk4]
            cases p?
            · cases decodeString w
              · rfl
              · exact ih _ _ _ _ _
            · rfl
          · simp only [if_neg hk4]
            by_cases hk5 : k0 = "size"
            · simp only [if_pos hk5]
              cases sz?
              · cases decodeString w
                · rfl
                · exact ih _ _ _ _ _
              · rfl
            · simp only [if_neg hk5]
              exact ih _ _ _ _ _

theorem decodeConfigFields_skip (pre post : List (String × Json))
    (k : String) (v : Json) (sm? : Option SuperMeta) (nvt? : Option String)
    (bds? : Option (List BlockDevice)) (gs? : Option (List Group))
    (nvi? : Option String) (ps? : Option (List Partition))
    (h1 : k ≠ "super_meta") (h2 : k ≠ "nv_text") (h3 : k ≠ "block_devices")
    (h4 : k ≠ "groups") (h5 : k ≠ "nv_id") (h6 : k ≠ "partitions") :
    decodeConfigFields (pre ++ (k, v) :: post) sm? nvt? bds? gs? nvi? ps? =
      decodeConfigFields (pre ++ post) sm? nvt? bds? gs? nvi? ps? := by
  induction pre generalizing sm? nvt? bds? gs? nvi? ps? with
  | nil =>
    simp only [List.nil_append, decodeConfigFields, if_neg h1, if_neg h2,
               if_neg h3, if_neg h4, if_neg h5, if_neg h6]
  | cons kv rest ih =>
    obtain ⟨k0, w⟩ := kv
    simp only [List.cons_append, decodeConfigFields]
    by_cases hk1 : k0 = "super_meta"
    · simp only [if_pos hk1]
      cases sm?
      · cases decodeSuperMeta w
        · rfl
        · exact ih _ _ _ _ _ _
      · rfl
    · simp only [if_neg hk1]
      by_cases hk2 : k0 = "nv_text"
      · simp only [if_pos hk2]
        cases nvt?
        · cases decodeString w
          · rfl
          · exact ih _ _ _ _ _ _
        · rfl
      · simp only [if_neg hk2]
        by_cases hk3 : k0 = "block_devices"
        · simp only [if_pos hk3]
          cases bds?
          · cases decodeList decodeBlockDevice w
            · rfl
            · exact ih _ _ _ _ _ _
          · rfl
        · simp only [if_neg hk3]
          by_cases hk4 : k0 = "groups"
          · simp only [if_pos hk4]
            cases gs?
            · cases decodeList decodeGroup w
              · rfl
              · exact ih _ _ _ _ _ _
            · rfl
          · simp only [if_neg hk4]
            by_cases hk5 : k0 = "nv_id"
            · simp only [if_pos hk5]
              cases nvi?
              · cases decodeString w
                · rfl
                · exact ih _ _ _ _ _ _
              · rfl
            · simp only [if_neg hk5]
              by_cases hk6 : k0 = "partitions"
              · simp only [if_pos hk6]
                cases ps?
                · cases decodeList decodePartition w
                  · rfl
                  · exact ih _ _ _ _ _ _
                · rfl
              · simp only [if_neg hk6]
                exact ih _ _ _ _ _ _

/-! ## Claims -/

/-- C1: for every syntactically valid JSON document that parses to a
schema-shaped object with all fields present, read_partition_config returns
Ok with every string and boolean field equal to the JSON value and every
sequence in input order.  Quantifying over an arbitrary PartitionConfig c
and requiring the document to parse to its canonical JSON image captures
byte-for-byte field equality and order preservation. -/
theorem c1_schema_load_exact (fs : FileSystem) (path s : String)
    (c : PartitionConfig) (hopen : fs path = .ok (.ok s))
    (hparse : parseJson s = .ok (PartitionConfig.toJson c)) :
    read_partition_config fs path = .ok c := by
  simp [read_partition_config, hopen, hparse, decodePartitionConfig_toJson]

theorem c1_schema_load_exact_witness :
    parseJson "\x7b\"super_meta\":\x7b\"path\":\"p\",\"size\":\"1\"\x7d,\"nv_text\":\"t\",\"block_devices\":[\x7b\"block_size\":\"2\",\"name\":\"d\",\"alignment\":\"3\",\"size\":\"4\"\x7d],\"groups\":[\x7b\"name\":\"g\",\"maximum_size\":\"5\"\x7d],\"nv_id\":\"i\",\"partitions\":[\x7b\"is_dynamic\":true,\"name\":\"q\",\"group_name\":\"g\",\"path\":\"r\",\"size\":\"6\"\x7d]\x7d" =
      .ok (PartitionConfig.toJson
        { super_meta := { path := "p", size := "1" }, nv_text := "t",
          block_devices := [{ block_size := "2", name := "d", alignment := "3", size := "4" }],
          groups := [{ name := "g", maximum_size := "5" }], nv_id := "i",
          partitions := [{ is_dynamic := true, name := "q", group_name := "g",
                           path := "r", size := "6" }] }) ∧
    read_partition_config
      (fun _ => .ok (.ok "\x7b\"super_meta\":\x7b\"path\":\"p\",\"size\":\"1\"\x7d,\"nv_text\":\"t\",\"block_devices\":[\x7b\"block_size\":\"2\",\"name\":\"d\",\"alignment\":\"3\",\"size\":\"4\"\x7d],\"groups\":[\x7b\"name\":\"g\",\"maximum_size\":\"5\"\x7d],\"nv_id\":\"i\",\"partitions\":[\x7b\"is_dynamic\":true,\"name\":\"q\",\"group_name\":\"g\",\"path\":\"r\",\"size\":\"6\"\x7d]\x7d"))
      "partition_config.json" =
      .ok { super_meta := { path := "p", size := "1" }, nv_text := "t",
            block_devices := [{ block_size := "2", name := "d", alignment := "3", size := "4" }],
            groups := [{ name := "g", maximum_size := "5" }], nv_id := "i",
            partitions := [{ is_dynamic := true, name := "q", group_name := "g",
                             path := "r", size := "6" }] } :=
  ⟨by rfl, c1_schema_load_exact _ _ _ _ rfl (by rfl)⟩

/-- C2: for every document in which the optional keys are absent (all
required fields present and well typed), the load succeeds and each
resulting maximum_size, path and size field is the empty string. -/
theorem c2_absent_optionals_empty (fs : FileSystem) (path s : String)
    (sm : SuperMeta) (nvt nvi : String) (bds : List BlockDevice)
    (gnames : List String) (parts : List (Bool × String × String))
    (hopen : fs path = .ok (.ok s))
    (hparse : parseJson s = .ok (minimalConfigJson sm nvt nvi bds gnames parts)) :
    read_partition_config fs path =
      .ok { super_meta := sm, nv_text := nvt, block_devices := bds,
            groups := gnames.map fun n => { name := n, maximum_size := "" },
            nv_id := nvi,
            partitions := parts.map fun t =>
              { is_dynamic := t.1, name := t.2.1, group_name := t.2.2,
                path := "", size := "" } } := by
  simp [read_partition_config, hopen, hparse, decodeMinimalConfig]

theorem c2_absent_optionals_empty_witness :
    parseJson "\x7b\"super_meta\":\x7b\"path\":\"p\",\"size\":\"1\"\x7d,\"nv_text\":\"t\",\"block_devices\":[],\"groups\":[\x7b\"name\":\"g\"\x7d],\"nv_id\":\"i\",\"partitions\":[\x7b\"is_dynamic\":true,\"name\":\"q\",\"group_name\":\"g\"\x7d]\x7d" =
      .ok (minimalConfigJson { path := "p", size := "1" } "t" "i" [] ["g"]
        [(true, "q", "g")]) ∧
    read_partition_config
      (fun _ => .ok (.ok "\x7b\"super_meta\":\x7b\"path\":\"p\",\"size\":\"1\"\x7d,\"nv_text\":\"t\",\"block_devices\":[],\"groups\":[\x7b\"name\":\"g\"\x7d],\"nv_id\":\"i\",\"partitions\":[\x7b\"is_dynamic\":true,\"name\":\"q\",\"group_name\":\"g\"\x7d]\x7d"))
      "partition_config.json" =
      .ok { super_meta := { path := "p", size := "1" }, nv_text := "t",
            block_devices := [],
            groups := [{ name := "g", maximum_size := "" }], nv_id := "i",
            partitions := [{ is_dynamic := true, name := "q", group_name := "g",
                             path := "", size := "" }] } :=
  ⟨by rfl, by
    exact c2_absent_optionals_empty _ _ _ { path := "p", size := "1" } "t" "i" []
      ["g"] [(true, "q", "g")] rfl (by rfl)⟩

/-- C3 counterexample: a path that is not a readable file can still open
successfully and only fail at the read, as a directory does on Linux (open
succeeds, read gives EISDIR).  The read failure happens inside
serde_json::from_reader, so the load fails with the JsonError kind, not
FileError: the claim that every such path fails with the Io kind and never
the Parse kind is false. -/
theorem c3_open_failure_is_io_counterexample :
    read_partition_config
      (fun _ => .ok (.error "Is a directory (os error 21)")) "somedir" =
      .error (.JsonError "Is a directory (os error 21)") := rfl

/-- C3 amended: only a File::open failure yields the FileError kind, which
then carries the underlying system error; a path that opens but fails to
read surfaces its io error through serde_json::from_reader as the JsonError
kind instead. -/
theorem c3_open_failure_is_io :
    (∀ (fs : FileSystem) (path e : String), fs path = .error e →
      read_partition_config fs path = .error (.FileError e)) ∧
    (∀ (fs : FileSystem) (path e : String), fs path = .ok (.error e) →
      read_partition_config fs path = .error (.JsonError e)) := by
  constructor
  · intro fs path e hopen
    simp [read_partition_config, hopen]
  · intro fs path e hread
    simp [read_partition_config, hread]

theorem c3_open_failure_is_io_witness :
    read_partition_config
      (fun _ => .error "No such file or directory (os error 2)") "missing.json" =
      .error (.FileError "No such file or directory (os error 2)") ∧
    read_partition_config
      (fun _ => .ok (.error "Is a directory (os error 21)")) "dir.json" =
      .error (.JsonError "Is a directory (os error 21)") :=
  ⟨c3_open_failure_is_io.1 _ "missing.json" _ rfl,
   c3_open_failure_is_io.2 _ "dir.json" _ rfl⟩

/-- C4: for every readable file whose contents fail JSON parsing, the load
fails with the JsonError kind carrying the parser diagnostic, never with the
FileError kind. -/
theorem c4_syntax_failure_is_parse (fs : FileSystem) (path s e : String)
    (hopen : fs path = .ok (.ok s)) (hparse : parseJson s = .error e) :
    read_partition_config fs path = .error (.JsonError e) := by
  simp [read_partition_config, hopen, hparse]

theorem c4_syntax_failure_is_parse_witness :
    parseJson "\x7b\"super_meta\":" = .error "EOF while parsing a value" ∧
    read_partition_config (fun _ => .ok (.ok "\x7b\"super_meta\":")) "bad.json" =
      .error (.JsonError "EOF while parsing a value") :=
  ⟨by rfl, c4_syntax_failure_is_parse _ _ _ _ rfl (by rfl)⟩

/-- C7: the load is a deterministic function of the file contents: two file
systems that agree on what the path opens to give field-for-field equal
results, so two calls on one unchanged file agree. -/
theorem c7_load_deterministic (fs1 fs2 : FileSystem) (path : String)
    (h : fs1 path = fs2 path) :
    read_partition_config fs1 path = read_partition_config fs2 path := by
  simp only [read_partition_config, h]

theorem c7_load_deterministic_witness :
    read_partition_config (fun _ => .ok (.ok "\x7b\x7d")) "cfg.json" =
      read_partition_config (fun _ => .ok (.ok "\x7b\x7d")) "cfg.json" :=
  c7_load_deterministic _ _ _ rfl

/-- C8: the load is all-or-nothing: every result is Ok with a fully built
PartitionConfig or exactly one of the two classified error kinds, and the
error value is surfaced to the caller unchanged. -/
theorem c8_all_or_nothing (fs : FileSystem) (path : String) :
    (∃ c, read_partition_config fs path = .ok c) ∨
    (∃ e, read_partition_config fs path = .error (.FileError e)) ∨
    (∃ e, read_partition_config fs path = .error (.JsonError e)) := by
  cases h : read_partition_config fs path with
  | ok c => exact Or.inl ⟨c, rfl⟩
  | error e =>
    cases e with
    | FileError s => exact Or.inr (Or.inl ⟨s, rfl⟩)
    | JsonError s => exact Or.inr (Or.inr ⟨s, rfl⟩)

/-- C5: for every parsed document in which a required field is missing from
an object of the corresponding record (path or size on SuperMeta; any of the
four BlockDevice fields; name on a Group; is_dynamic, name or group_name on
a Partition; or any of the six top-level PartitionConfig fields), the load
fails with the JsonError kind. -/
theorem c5_missing_required_field_parse :
    (∀ (fs : FileSystem) (p s : String) (fields smf : List (String × Json)),
      fs p = .ok (.ok s) → parseJson s = .ok (.obj fields) →
      firstVal "super_meta" fields = some (.obj smf) →
      ("path" ∉ keysOf smf ∨ "size" ∉ keysOf smf) →
      ∃ e, read_partition_config fs p = .error (.JsonError e)) ∧
    (∀ (fs : FileSystem) (p s : String) (fields bf : List (String × Json))
        (elems : List Json),
      fs p = .ok (.ok s) → parseJson s = .ok (.obj fields) →
      firstVal "block_devices" fields = some (.arr elems) → (.obj bf) ∈ elems →
      ("block_size" ∉ keysOf bf ∨ "name" ∉ keysOf bf ∨
        "alignment" ∉ keysOf bf ∨ "size" ∉ keysOf bf) →
      ∃ e, read_partition_config fs p = .error (.JsonError e)) ∧
    (∀ (fs : FileSystem) (p s : String) (fields gf : List (String × Json))
        (elems : List Json),
      fs p = .ok (.ok s) → parseJson s = .ok (.obj fields) →
      firstVal "groups" fields = some (.arr elems) → (.obj gf) ∈ elems →
      "name" ∉ keysOf gf →
      ∃ e, read_partition_config fs p = .error (.JsonError e)) ∧
    (∀ (fs : FileSystem) (p s : String) (fields pf : List (String × Json))
        (elems : List Json),
      fs p = .ok (.ok s) → parseJson s = .ok (.obj fields) →
      firstVal "partitions" fields = some (.arr elems) → (.obj pf) ∈ elems →
      ("is_dynamic" ∉ keysOf pf ∨ "name" ∉ keysOf pf ∨
        "group_name" ∉ keysOf pf) →
      ∃ e, read_partition_config fs p = .error (.JsonError e)) ∧
    (∀ (fs : FileSystem) (p s : String) (fields : List (String × Json)),
      fs p = .ok (.ok s) → parseJson s = .ok (.obj fields) →
      ("super_meta" ∉ keysOf fields ∨ "nv_text" ∉ keysOf fields ∨
        "block_devices" ∉ keysOf fields ∨ "groups" ∉ keysOf fields ∨
        "nv_id" ∉ keysOf fields ∨ "partitions" ∉ keysOf fields) →
      ∃ e, read_partition_config fs p = .error (.JsonError e)) := by
  refine ⟨?_, ?_, ?_, ?_, ?_⟩
  · intro fs p s fields smf hopen hparse hfv hks
    refine read_jsonError_of_not_ok fs p s _ hopen hparse ?_
    intro c hdec
    obtain ⟨m, hm⟩ := config_ok_superMeta fields smf c hdec hfv
    have hr := decodeSuperMetaFields_ok_required smf none none m hm
    rcases hks with hks | hks
    · rcases hr.1 with h | h
      · simp at h
      · exact hks h
    · rcases hr.2 with h | h
      · simp at h
      · exact hks h
  · intro fs p s fields bf elems hopen hparse hfv hmem hks
    refine read_jsonError_of_not_ok fs p s _ hopen hparse ?_
    intro c hdec
    obtain ⟨b, hb⟩ := config_ok_blockDevice fields bf elems c hdec hfv hmem
    have hr := decodeBlockDeviceFields_ok_required bf none none none none b hb
    rcases hks with hks | hks | hks | hks
    · rcases hr.1 with h | h
      · simp at h
      · exact hks h
    · rcases hr.2.1 with h | h
      · simp at h
      · exact hks h
    · rcases hr.2.2.1 with h | h
      · simp at h
      · exact hks h
    · rcases hr.2.2.2 with h | h
      · simp at h
      · exact hks h
  · intro fs p s fields gf elems hopen hparse hfv hmem hks
    refine read_jsonError_of_not_ok fs p s _ hopen hparse ?_
    intro c hdec
    obtain ⟨g, hg⟩ := config_ok_group fields gf elems c hdec hfv hmem
    rcases decodeGroupFields_ok_required gf none none g hg with h | h
    · simp at h
    · exact hks h
  · intro fs p s fields pf elems hopen hparse hfv hmem hks
    refine read_jsonError_of_not_ok fs p s _ hopen hparse ?_
    intro c hdec
    obtain ⟨a, ha⟩ := config_ok_partition fields pf elems c hdec hfv hmem
    have hr := decodePartitionFields_ok_required pf none none none none none a ha
    rcases hks with hks | hks | hks
    · rcases hr.1 with h | h
      · simp at h
      · exact hks h
    · rcases hr.2.1 with h | h
      · simp at h
      · exact hks h
    · rcases hr.2.2 with h | h
      · simp at h
      · exact hks h
  · intro fs p s fields hopen hparse hks
    refine read_jsonError_of_not_ok fs p s _ hopen hparse ?_
    intro c hdec
    have hr := decodeConfigFields_ok_required fields none none none none none none c hdec
    rcases hks with hks | hks | hks | hks | hks | hks
    · rcases hr.1 with h | h
      · simp at h
      · exact hks h
    · rcases hr.2.1 with h | h
      · simp at h
      · exact hks h
    · rcases hr.2.2.1 with h | h
      · simp at h
      · exact hks h
    · rcases hr.2.2.2.1 with h | h
      · simp at h
      · exact hks h
    · rcases hr.2.2.2.2.1 with h | h
      · simp at h
      · exact hks h
    · rcases hr.2.2.2.2.2 with h | h
      · simp at h
      · exact hks h

theorem c5_missing_required_field_parse_witness :
    (∃ e, read_partition_config (fun _ => .ok (.ok "\x7b\"super_meta\":\x7b\x7d\x7d"))
      "a.json" = .error (.JsonError e)) ∧
    (∃ e, read_partition_config (fun _ => .ok (.ok "\x7b\"block_devices\":[\x7b\x7d]\x7d"))
      "b.json" = .error (.JsonError e)) ∧
    (∃ e, read_partition_config (fun _ => .ok (.ok "\x7b\"groups\":[\x7b\x7d]\x7d"))
      "c.json" = .error (.JsonError e)) ∧
    (∃ e, read_partition_config (fun _ => .ok (.ok "\x7b\"partitions\":[\x7b\x7d]\x7d"))
      "d.json" = .error (.JsonError e)) ∧
    (∃ e, read_partition_config (fun _ => .ok (.ok "\x7b\x7d"))
      "e.json" = .error (.JsonError e)) :=
  ⟨c5_missing_required_field_parse.1 _ "a.json" _
      [("super_meta", .obj [])] [] rfl (by rfl) (by rfl) (Or.inl (by decide)),
   c5_missing_required_field_parse.2.1 _ "b.json" _
      [("block_devices", .arr [.obj []])] [] [.obj []] rfl (by rfl) (by rfl)
      (List.mem_singleton.mpr rfl) (Or.inl (by decide)),
   c5_missing_required_field_parse.2.2.1 _ "c.json" _
      [("groups", .arr [.obj []])] [] [.obj []] rfl (by rfl) (by rfl)
      (List.mem_singleton.mpr rfl) (by decide),
   c5_missing_required_field_parse.2.2.2.1 _ "d.json" _
      [("partitions", .arr [.obj []])] [] [.obj []] rfl (by rfl) (by rfl)
      (List.mem_singleton.mpr rfl) (Or.inl (by decide)),
   c5_missing_required_field_parse.2.2.2.2 _ "e.json" _
      [] rfl (by rfl) (Or.inl (by decide))⟩

/-- C6: a string-declared field given a JSON number fails the load with the
JsonError kind, while a JSON string is accepted with its raw text retained
unchanged and unconverted. -/
theorem c6_string_fields_raw_text :
    (∀ s, decodeString (.str s) = .ok s) ∧
    (∀ r, decodeString (.num r) = .error "invalid type: expected a string") ∧
    (∀ b : BlockDevice, decodeBlockDevice b.toJson = .ok b) ∧
    (∀ (fs : FileSystem) (p s : String) (fields bf : List (String × Json))
        (elems : List Json) (k r : String),
      fs p = .ok (.ok s) → parseJson s = .ok (.obj fields) →
      firstVal "block_devices" fields = some (.arr elems) → (.obj bf) ∈ elems →
      (k, Json.num r) ∈ bf →
      (k = "block_size" ∨ k = "name" ∨ k = "alignment" ∨ k = "size") →
      ∃ e, read_partition_config fs p = .error (.JsonError e)) := by
  refine ⟨fun s => rfl, fun r => rfl, decodeBlockDevice_toJson, ?_⟩
  intro fs p s fields bf elems k r hopen hparse hfv hmem hkv hks
  refine read_jsonError_of_not_ok fs p s _ hopen hparse ?_
  intro c hdec
  obtain ⟨b, hb⟩ := config_ok_blockDevice fields bf elems c hdec hfv hmem
  obtain ⟨str0, habs⟩ :=
    decodeBlockDeviceFields_ok_str bf none none none none b hb k (.num r) hkv hks
  exact Json.noConfusion habs

theorem c6_string_fields_raw_text_witness :
    decodeString (.str "4096") = .ok "4096" ∧
    decodeString (.num "4096") = .error "invalid type: expected a string" ∧
    decodeBlockDevice (BlockDevice.toJson
      { block_size := "1", name := "d", alignment := "2", size := "3" }) =
      .ok { block_size := "1", name := "d", alignment := "2", size := "3" } ∧
    (∃ e, read_partition_config
      (fun _ => .ok (.ok "\x7b\"block_devices\":[\x7b\"size\":7\x7d]\x7d")) "f.json" =
      .error (.JsonError e)) :=
  ⟨c6_string_fields_raw_text.1 "4096",
   c6_string_fields_raw_text.2.1 "4096",
   c6_string_fields_raw_text.2.2.1 _,
   c6_string_fields_raw_text.2.2.2 _ "f.json" _
      [("block_devices", .arr [.obj [("size", .num "7")]])]
      [("size", .num "7")] [.obj [("size", .num "7")]] "size" "7"
      rfl (by rfl) (by rfl) (List.mem_singleton.mpr rfl)
      (List.mem_singleton.mpr rfl) (Or.inr (Or.inr (Or.inr rfl)))⟩

/-- C9: an extra member with a key that is not a declared field of the
record, anywhere in the top-level object or in a super_meta, block device,
group or partition object, is ignored: the decode result is exactly the
result without that member. -/
theorem c9_unknown_keys_ignored :
    (∀ (pre post : List (String × Json)) (k : String) (v : Json),
      k ∉ (["path", "size"] : List String) →
      decodeSuperMeta (.obj (pre ++ (k, v) :: post)) =
        decodeSuperMeta (.obj (pre ++ post))) ∧
    (∀ (pre post : List (String × Json)) (k : String) (v : Json),
      k ∉ (["block_size", "name", "alignment", "size"] : List String) →
      decodeBlockDevice (.obj (pre ++ (k, v) :: post)) =
        decodeBlockDevice (.obj (pre ++ post))) ∧
    (∀ (pre post : List (String × Json)) (k : String) (v : Json),
      k ∉ (["name", "maximum_size"] : List String) →
      decodeGroup (.obj (pre ++ (k, v) :: post)) =
        decodeGroup (.obj (pre ++ post))) ∧
    (∀ (pre post : List (String × Json)) (k : String) (v : Json),
      k ∉ (["is_dynamic", "name", "group_name", "path", "size"] : List String) →
      decodePartition (.obj (pre ++ (k, v) :: post)) =
        decodePartition (.obj (pre ++ post))) ∧
    (∀ (pre post : List (String × Json)) (k : String) (v : Json),
      k ∉ (["super_meta", "nv_text", "block_devices", "groups",
            "nv_id", "partitions"] : List String) →
      decodePartitionConfig (.obj (pre ++ (k, v) :: post)) =
        decodePartitionConfig (.obj (pre ++ post))) := by
  refine ⟨?_, ?_, ?_, ?_, ?_⟩ <;> intro pre post k v hk <;>
    simp only [List.mem_cons, List.not_mem_nil, or_false, not_or] at hk
  · obtain ⟨h1, h2⟩ := hk
    exact decodeSuperMetaFields_skip pre post k v none none h1 h2
  · obtain ⟨h1, h2, h3, h4⟩ := hk
    exact decodeBlockDeviceFields_skip pre post k v none none none none h1 h2 h3 h4
  · obtain ⟨h1, h2⟩ := hk
    exact decodeGroupFields_skip pre post k v none none h1 h2
  · obtain ⟨h1, h2, h3, h4, h5⟩ := hk
    exact decodePartitionFields_skip pre post k v none none none none none
      h1 h2 h3 h4 h5
  · obtain ⟨h1, h2, h3, h4, h5, h6⟩ := hk
    exact decodeConfigFields_skip pre post k v none none none none none none
      h1 h2 h3 h4 h5 h6

theorem c9_unknown_keys_ignored_witness :
    decodeSuperMeta (.obj ([("path", .str "p")] ++ ("extra", .null) ::
        [("size", .str "1")])) =
      decodeSuperMeta (.obj ([("path", .str "p")] ++ [("size", .str "1")])) ∧
    decodeBlockDevice (.obj ([] ++ ("extra", .num "9") ::
        [("block_size", .str "1"), ("name", .str "d"), ("alignment", .str "2"),
         ("size", .str "3")])) =
      decodeBlockDevice (.obj ([] ++
        [("block_size", .str "1"), ("name", .str "d"), ("alignment", .str "2"),
         ("size", .str "3")])) ∧
    decodeGroup (.obj ([("name", .str "g")] ++ ("extra", .bool true) :: [])) =
      decodeGroup (.obj ([("name", .str "g")] ++ [])) ∧
    decodePartition (.obj ([("is_dynamic", .bool true)] ++ ("extra", .str "x") ::
        [("name", .str "q"), ("group_name", .str "g")])) =
      decodePartition (.obj ([("is_dynamic", .bool true)] ++
        [("name", .str "q"), ("group_name", .str "g")])) ∧
    decodePartitionConfig (.obj ([] ++ ("extra", .arr []) :: [])) =
      decodePartitionConfig (.obj ([] ++ [])) :=
  ⟨c9_unknown_keys_ignored.1 _ _ "extra" _ (by decide),
   c9_unknown_keys_ignored.2.1 _ _ "extra" _ (by decide),
   c9_unknown_keys_ignored.2.2.1 _ _ "extra" _ (by decide),
   c9_unknown_keys_ignored.2.2.2.1 _ _ "extra" _ (by decide),
   c9_unknown_keys_ignored.2.2.2.2 _ _ "extra" _ (by decide)⟩

/-- C10: an optional field present with the JSON value null fails the load
with the JsonError kind instead of receiving the empty-string default; the
default applies only when the key is entirely absent. -/
theorem c10_null_optional_fails :
    (∀ n, decodeGroup (.obj [("name", .str n), ("maximum_size", .null)]) =
      .error "invalid type: expected a string") ∧
    (∀ (d : Bool) (n gn : String),
      decodePartition (.obj [("is_dynamic", .bool d), ("name", .str n),
        ("group_name", .str gn), ("path", .null)]) =
      .error "invalid type: expected a string") ∧
    (∀ (d : Bool) (n gn : String),
      decodePartition (.obj [("is_dynamic", .bool d), ("name", .str n),
        ("group_name", .str gn), ("size", .null)]) =
      .error "invalid type: expected a string") ∧
    (∀ (fs : FileSystem) (p s : String) (fields gf : List (String × Json))
        (elems : List Json),
      fs p = .ok (.ok s) → parseJson s = .ok (.obj fields) →
      firstVal "groups" fields = some (.arr elems) → (.obj gf) ∈ elems →
      ("maximum_size", Json.null) ∈ gf →
      ∃ e, read_partition_config fs p = .error (.JsonError e)) ∧
    (∀ (fs : FileSystem) (p s : String) (fields pf : List (String × Json))
        (elems : List Json),
      fs p = .ok (.ok s) → parseJson s = .ok (.obj fields) →
      firstVal "partitions" fields = some (.arr elems) → (.obj pf) ∈ elems →
      ("path", Json.null) ∈ pf →
      ∃ e, read_partition_config fs p = .error (.JsonError e)) ∧
    (∀ (fs : FileSystem) (p s : String) (fields pf : List (String × Json))
        (elems : List Json),
      fs p = .ok (.ok s) → parseJson s = .ok (.obj fields) →
      firstVal "partitions" fields = some (.arr elems) → (.obj pf) ∈ elems →
      ("size", Json.null) ∈ pf →
      ∃ e, read_partition_config fs p = .error (.JsonError e)) := by
  refine ⟨fun n => rfl, fun d n gn => rfl, fun d n gn => rfl, ?_, ?_, ?_⟩
  · intro fs p s fields gf elems hopen hparse hfv hmem hkv
    refine read_jsonError_of_not_ok fs p s _ hopen hparse ?_
    intro c hdec
    obtain ⟨g, hg⟩ := config_ok_group fields gf elems c hdec hfv hmem
    obtain ⟨str0, habs⟩ :=
      decodeGroupFields_ok_str gf none none g hg "maximum_size" .null hkv (Or.inr rfl)
    exact Json.noConfusion habs
  · intro fs p s fields pf elems hopen hparse hfv hmem hkv
    refine read_jsonError_of_not_ok fs p s _ hopen hparse ?_
    intro c hdec
    obtain ⟨a, ha⟩ := config_ok_partition fields pf elems c hdec hfv hmem
    obtain ⟨str0, habs⟩ :=
      decodePartitionFields_ok_str pf none none none none none a ha "path" .null
        hkv (Or.inr (Or.inr (Or.inl rfl)))
    exact Json.noConfusion habs
  · intro fs p s fields pf elems hopen hparse hfv hmem hkv
    refine read_jsonError_of_not_ok fs p s _ hopen hparse ?_
    intro c hdec
    obtain ⟨a, ha⟩ := config_ok_partition fields pf elems c hdec hfv hmem
    obtain ⟨str0, habs⟩ :=
      decodePartitionFields_ok_str pf none none none none none a ha "size" .null
        hkv (Or.inr (Or.inr (Or.inr rfl)))
    exact Json.noConfusion habs

theorem c10_null_optional_fails_witness :
    decodeGroup (.obj [("name", .str "g"), ("maximum_size", .null)]) =
      .error "invalid type: expected a string" ∧
    decodePartition (.obj [("is_dynamic", .bool true), ("name", .str "q"),
        ("group_name", .str "g"), ("path", .null)]) =
      .error "invalid type: expected a string" ∧
    decodePartition (.obj [("is_dynamic", .bool false), ("name", .str "q"),
        ("group_name", .str "g"), ("size", .null)]) =
      .error "invalid type: expected a string" ∧
    (∃ e, read_partition_config
      (fun _ => .ok (.ok "\x7b\"groups\":[\x7b\"maximum_size\":null\x7d]\x7d"))
      "g.json" = .error (.JsonError e)) ∧
    (∃ e, read_partition_config
      (fun _ => .ok (.ok "\x7b\"partitions\":[\x7b\"path\":null\x7d]\x7d"))
      "h.json" = .error (.JsonError e)) ∧
    (∃ e, read_partition_config
      (fun _ => .ok (.ok "\x7b\"partitions\":[\x7b\"size\":null\x7d]\x7d"))
      "i.json" = .error (.JsonError e)) :=
  ⟨c10_null_optional_fails.1 "g",
   c10_null_optional_fails.2.1 true "q" "g",
   c10_null_optional_fails.2.2.1 false "q" "g",
   c10_null_optional_fails.2.2.2.1 _ "g.json" _
      [("groups", .arr [.obj [("maximum_size", .null)]])]
      [("maximum_size", .null)] [.obj [("maximum_size", .null)]]
      rfl (by rfl) (by rfl) (List.mem_singleton.mpr rfl)
      (List.mem_singleton.mpr rfl),
   c10_null_optional_fails.2.2.2.2.1 _ "h.json" _
      [("partitions", .arr [.obj [("path", .null)]])]
      [("path", .null)] [.obj [("path", .null)]]
      rfl (by rfl) (by rfl) (List.mem_singleton.mpr rfl)
      (List.mem_singleton.mpr rfl),
   c10_null_optional_fails.2.2.2.2.2 _ "i.json" _
      [("partitions", .arr [.obj [("size", .null)]])]
      [("size", .null)] [.obj [("size", .null)]]
      rfl (by rfl) (by rfl) (List.mem_singleton.mpr rfl)
      (List.mem_singleton.mpr rfl)⟩

end SuperImageCreater
